import Mathlib

/-!
# simple-go-api: a shallow embedding of `main.go`

The program is a one-file command-line CRUD client for a document store.
This development embeds its functions (`main`, `getInputData`,
`createRecord`, `getRecordsFromCollection`, `getRecordID`, `updateRecord`,
`deleteRecord`) as state-passing Lean functions over an explicit process
state (remaining standard-input lines, the store behind the client handle,
and the trace of observable events), together with models of the library
calls they make (`strconv.ParseInt`, `strconv.ParseFloat`,
`strings.TrimSpace`, `primitive.ObjectIDFromHex` and the four driver
requests).

Conventions.
* A Go `string` is a Lean `String`; the library models look at its
  characters. All classifications made by the program are on ASCII
  characters, so reading characters instead of bytes does not change them.
* Standard input is a list of lines, each already split at the newline by
  `bufio.ScanLines`; every `bufio.Scanner` the program creates reads the
  next unread line (interactive input, one line per read), and a line is
  shorter than the scanner's token limit.
* A `float32` is its IEEE-754 bit pattern, a natural number below `2^32`.
* The connection string in the source is a placeholder to be filled in; what
  `mongo.Connect` returns for it is a field of the store model, next to the
  documents of the collection and the fault, if any, that requests meet.
* The trace of a run records the prints, the requests sent through the client
  and, as a ghost event, each entry into one of the four record operations.
-/

namespace SimpleGoApi

/-! ## Go values -/

/-- Error values the program can receive from its libraries. -/
inductive GoError where
  /-- The value strconv.ErrSyntax wrapped in a NumError. -/
  | errSyn
  /-- The value strconv.ErrRange wrapped in a NumError. -/
  | errRange
  /-- The value primitive.ErrInvalidHex. -/
  | invalidHex
  /-- The value hex.InvalidByteError for the offending character. -/
  | invalidByte (c : Char)
  /-- The value mongo.ErrNoDocuments. -/
  | noDocuments
  /-- A request that did not reach the server (server selection, network). -/
  | network
  /-- A write that was applied but whose write concern was not satisfied. -/
  | writeConcern
  /-- A failure while draining a cursor. -/
  | cursor
  deriving DecidableEq, Repr

/-- A 12-byte `primitive.ObjectID`. -/
abbrev ObjectID := List Nat

/-! ## `strconv.ParseInt(s, 10, 64)` -/

/-- Go `lower`: maps an ASCII letter to lower case (`c | ('x' - 'X')`). -/
def lower (c : Char) : Nat := c.toNat ||| 32

/-- The loop of `strconv.ParseUint(s, 10, 64)` over the remaining characters,
with accumulator `n`: a character that is not a decimal digit is a syntax
error, and the first overflow returns `maxVal` with a range error without
looking at the rest. -/
def parseUintLoop : List Char → Nat → Nat × Option GoError
  | [], n => (n, none)
  | c :: cs, n =>
    if 48 ≤ c.toNat ∧ c.toNat ≤ 57 then
      if n ≥ (2 ^ 64 - 1) / 10 + 1 then (2 ^ 64 - 1, some .errRange)
      else if n * 10 + (c.toNat - 48) > 2 ^ 64 - 1 then (2 ^ 64 - 1, some .errRange)
      else parseUintLoop cs (n * 10 + (c.toNat - 48))
    else if 97 ≤ lower c ∧ lower c ≤ 122 then (0, some .errSyn)
    else (0, some .errSyn)

/-- Model of `strconv.ParseUint(s, 10, 64)`. -/
def ParseUint (s : List Char) : Nat × Option GoError :=
  match s with
  | [] => (0, some .errSyn)
  | _ => parseUintLoop s 0

/-- Model of `strconv.ParseInt(s, 10, 64)`: the value and the error. -/
def ParseInt (s : String) : Int × Option GoError :=
  match s.data with
  | [] => (0, some .errSyn)
  | c :: cs =>
    let neg := c.toNat = 45
    let body := if c.toNat = 43 ∨ c.toNat = 45 then cs else c :: cs
    match ParseUint body with
    | (_, some .errRange) =>
      if neg then (-(2 ^ 63 : Int), some .errRange) else (2 ^ 63 - 1, some .errRange)
    | (_, some e) => (0, some e)
    | (un, none) =>
      if ¬ neg ∧ un ≥ 2 ^ 63 then (2 ^ 63 - 1, some .errRange)
      else if neg ∧ un > 2 ^ 63 then (-(2 ^ 63 : Int), some .errRange)
      else if neg then (-(un : Int), none) else ((un : Int), none)

/-! ## `strings.TrimSpace` -/

/-- Go `unicode.IsSpace`: the Unicode White_Space property. -/
def isSpace (c : Char) : Bool :=
  let n := c.toNat
  (9 ≤ n && n ≤ 13) || n == 32 || n == 0x85 || n == 0xA0 || n == 0x1680 ||
  (0x2000 ≤ n && n ≤ 0x200A) || n == 0x2028 || n == 0x2029 || n == 0x202F ||
  n == 0x205F || n == 0x3000

/-- Removal of the trailing white space of a character list. -/
def trimRight (l : List Char) : List Char :=
  (l.reverse.dropWhile isSpace).reverse

/-- Model of `strings.TrimSpace` on the characters of a string. -/
def trimSpaceChars (l : List Char) : List Char :=
  trimRight (l.dropWhile isSpace)

/-- Model of `strings.TrimSpace`. -/
def TrimSpace (s : String) : String := ⟨trimSpaceChars s.data⟩

/-! ## `primitive.ObjectIDFromHex` -/

/-- Go `encoding/hex` reverse table: the value of a hexadecimal digit. -/
def hexVal (c : Char) : Option Nat :=
  let n := c.toNat
  if 48 ≤ n ∧ n ≤ 57 then some (n - 48)
  else if 97 ≤ n ∧ n ≤ 102 then some (n - 87)
  else if 65 ≤ n ∧ n ≤ 70 then some (n - 55)
  else none

/-- Model of `hex.Decode` on an even number of characters: pairs of
hexadecimal digits become bytes, the first bad character is the error. -/
def hexDecode : List Char → Except GoError (List Nat)
  | p :: q :: rest =>
    match hexVal p with
    | none => .error (.invalidByte p)
    | some a =>
      match hexVal q with
      | none => .error (.invalidByte q)
      | some b =>
        match hexDecode rest with
        | .error e => .error e
        | .ok bs => .ok ((a * 16 + b) :: bs)
  | [p] =>
    match hexVal p with
    | none => .error (.invalidByte p)
    | some _ => .error .invalidHex
  | [] => .ok []

/-- Model of `primitive.ObjectIDFromHex`: the string must be 24 bytes long
and decode as hexadecimal. -/
def ObjectIDFromHex (s : String) : Except GoError ObjectID :=
  if s.utf8ByteSize ≠ 24 then .error .invalidHex
  else hexDecode s.data

/-! ## `strconv.ParseFloat(s, 32)` -/

/-- A `float32`, as its IEEE-754 bit pattern. -/
abbrev Float32 := Nat

/-- Bit pattern of positive infinity. -/
def infBits : Float32 := 0x7F800000

/-- Bit pattern of the quiet NaN that `float32(math.NaN())` produces. -/
def nanBits : Float32 := 0x7FC00000

/-- Sets the sign bit of a bit pattern when `neg` holds. -/
def withSign (neg : Bool) (bits : Float32) : Float32 :=
  if neg then bits + 2 ^ 31 else bits

/-- Go `commonPrefixLenIgnoreCase`: length of the common beginning of `s`
and the lower-case pattern `pat`, ignoring the case of ASCII letters. -/
def commonPrefixLenIgnoreCase : List Char → List Char → Nat
  | c :: cs, p :: ps =>
    let n := if 65 ≤ c.toNat ∧ c.toNat ≤ 90 then c.toNat + 32 else c.toNat
    if n = p.toNat then commonPrefixLenIgnoreCase cs ps + 1 else 0
  | _, _ => 0

/-- The `'i', 'I'` case of Go `special`, also reached after a sign. -/
def specialInf (neg : Bool) (nsign : Nat) (s : List Char) : Option (Float32 × Nat) :=
  let n0 := commonPrefixLenIgnoreCase s "infinity".data
  let n := if 3 < n0 ∧ n0 < 8 then 3 else n0
  if n = 3 ∨ n = 8 then some (withSign neg infBits, nsign + n) else none

/-- Go `special`: recognises `inf`, `infinity` (possibly signed) and `nan`
at the start of `s`; returns the value and the number of characters read. -/
def special (s : List Char) : Option (Float32 × Nat) :=
  match s with
  | [] => none
  | c :: cs =>
    if c.toNat = 43 ∨ c.toNat = 45 then specialInf (c.toNat = 45) 1 cs
    else if c.toNat = 105 ∨ c.toNat = 73 then specialInf false 0 s
    else if c.toNat = 110 ∨ c.toNat = 78 then
      if commonPrefixLenIgnoreCase s "nan".data = 3 then some (nanBits, 3) else none
    else none

/-- Local variables of the digit loop of Go `readFloat`. -/
structure MantState where
  sawdot : Bool
  sawdigits : Bool
  underscores : Bool
  trunc : Bool
  nd : Nat
  ndMant : Nat
  dp : Int
  mantissa : Nat
  deriving DecidableEq, Repr

/-- The digit loop of Go `readFloat`. In base 16 the mantissa keeps the first
16 significant digits and `trunc` records that more followed; in base 10 all
significant digits are kept, because the decimal conversion is exact (the
19-digit fast paths are only taken when they agree with it). Returns the state
and the unread characters. -/
def readMant (hex : Bool) : List Char → MantState → MantState × List Char
  | [], st => (st, [])
  | c :: cs, st =>
    if c.toNat = 95 then readMant hex cs { st with underscores := true }
    else if c.toNat = 46 then
      if st.sawdot then (st, c :: cs)
      else readMant hex cs { st with sawdot := true, dp := st.nd }
    else if 48 ≤ c.toNat ∧ c.toNat ≤ 57 then
      if c.toNat = 48 ∧ st.nd = 0 then
        readMant hex cs { st with sawdigits := true, dp := st.dp - 1 }
      else if hex = false ∨ st.ndMant < 16 then
        readMant hex cs { st with
          sawdigits := true, nd := st.nd + 1, ndMant := st.ndMant + 1,
          mantissa := st.mantissa * (if hex then 16 else 10) + (c.toNat - 48) }
      else
        readMant hex cs { st with
          sawdigits := true, nd := st.nd + 1, trunc := st.trunc || c.toNat != 48 }
    else if hex = true ∧ 97 ≤ lower c ∧ lower c ≤ 102 then
      if st.ndMant < 16 then
        readMant hex cs { st with
          sawdigits := true, nd := st.nd + 1, ndMant := st.ndMant + 1,
          mantissa := st.mantissa * 16 + (lower c - 97 + 10) }
      else
        readMant hex cs { st with sawdigits := true, nd := st.nd + 1, trunc := true }
    else (st, c :: cs)

/-- The exponent-digit loop of Go `readFloat`: digits and underscores; the
exponent stops growing once it has reached 10000. Returns the exponent,
whether an underscore was seen, and the unread characters. -/
def readExpDigits : List Char → Nat → Bool → Nat × Bool × List Char
  | [], e, u => (e, u, [])
  | c :: cs, e, u =>
    if c.toNat = 95 then readExpDigits cs e true
    else if 48 ≤ c.toNat ∧ c.toNat ≤ 57 then
      readExpDigits cs (if e < 10000 then e * 10 + (c.toNat - 48) else e) u
    else (e, u, c :: cs)

/-- What the scanner has seen last, in Go `underscoreOK`. -/
inductive Saw where
  | start
  | digit
  | underscore
  | other
  deriving DecidableEq, Repr

/-- The loop of Go `underscoreOK` over the number proper. -/
def underscoreLoop (hex : Bool) : List Char → Saw → Bool
  | [], saw => saw != .underscore
  | c :: cs, saw =>
    if (48 ≤ c.toNat ∧ c.toNat ≤ 57) ∨ (hex = true ∧ 97 ≤ lower c ∧ lower c ≤ 102) then
      underscoreLoop hex cs .digit
    else if c.toNat = 95 then
      if saw != .digit then false else underscoreLoop hex cs .underscore
    else if saw == .underscore then false
    else underscoreLoop hex cs .other

/-- Go `underscoreOK`: underscores only separate digits (or follow a base
marker). -/
def underscoreOK (s : List Char) : Bool :=
  let s1 := match s with
    | c :: cs => if c.toNat = 45 ∨ c.toNat = 43 then cs else s
    | [] => s
  match s1 with
  | z :: b :: rest =>
    if z.toNat = 48 ∧ (lower b = 98 ∨ lower b = 111 ∨ lower b = 120) then
      underscoreLoop (lower b = 120) rest .digit
    else underscoreLoop false s1 .start
  | _ => underscoreLoop false s1 .start

/-- What Go `readFloat` returns on success, for an input read to its end. -/
structure FloatParts where
  neg : Bool
  hex : Bool
  trunc : Bool
  mantissa : Nat
  /-- Position of the decimal point (a binary position in base 16). -/
  dp : Int
  /-- Exponent of the mantissa: decimal in base 10, binary in base 16. -/
  exp : Int
  deriving DecidableEq, Repr

/-- Go `readFloat`, followed by the test of `ParseFloat` that the whole string
was read: `none` is a syntax error. -/
def readFloat (s : List Char) : Option FloatParts :=
  match s with
  | [] => none
  | c0 :: cs0 =>
    let neg : Bool := c0.toNat = 45
    let s1 := if c0.toNat = 43 ∨ c0.toNat = 45 then cs0 else s
    let hex : Bool := match s1 with
      | z :: x :: _ :: _ => z.toNat = 48 ∧ lower x = 120
      | _ => false
    let s2 := if hex then s1.drop 2 else s1
    let (st, rest) := readMant hex s2 ⟨false, false, false, false, 0, 0, 0, 0⟩
    if st.sawdigits = false then none
    else
      let dp0 : Int := if st.sawdot then st.dp else st.nd
      let dp1 : Int := if hex then dp0 * 4 else dp0
      let ndMant : Int := if hex then st.ndMant * 4 else st.ndMant
      let finish (dp : Int) (u : Bool) (rest : List Char) : Option FloatParts :=
        if (u = true ∧ underscoreOK s = false) ∨ rest ≠ [] then none
        else some ⟨neg, hex, st.trunc, st.mantissa, dp,
          if st.mantissa ≠ 0 then dp - ndMant else 0⟩
      match rest with
      | e :: r1 =>
        if lower e = (if hex then 112 else 101) then
          match r1 with
          | [] => none
          | sg :: r2 =>
            let esign : Int := if sg.toNat = 45 then -1 else 1
            let r3 := if sg.toNat = 43 ∨ sg.toNat = 45 then r2 else r1
            match r3 with
            | [] => none
            | d :: _ =>
              if d.toNat < 48 ∨ d.toNat > 57 then none
              else
                let (ev, u, r4) := readExpDigits r3 0 st.underscores
                finish (dp1 + ev * esign) u r4
        else if hex then none
        else finish dp1 st.underscores rest
      | [] => if hex then none else finish dp1 st.underscores []

/-- Floor of the binary logarithm of `n` (0 for `n < 2`), by halving at most
`fuel` times; `fuel = n` is always enough. -/
def log2Fuel : Nat → Nat → Nat
  | 0, _ => 0
  | fuel + 1, n => if n < 2 then 0 else log2Fuel fuel (n / 2) + 1

/-- Rounds the positive rational `num / den` (plus a little more when
`sticky`) to the nearest `float32`, ties to even: the bit pattern without the
sign; a pattern of `infBits` or more means the value overflows. -/
def roundBits (num den : Nat) (sticky : Bool) : Nat :=
  if num = 0 then 0
  else
    let a : Int := log2Fuel num num
    let b : Int := log2Fuel den den
    let k0 : Int := a - b
    let k : Int :=
      if num * 2 ^ (-k0).toNat ≥ den * 2 ^ k0.toNat then k0 else k0 - 1
    let e : Int := max k (-126)
    let n := num * 2 ^ (23 - e).toNat
    let d := den * 2 ^ (e - 23).toNat
    let q := n / d
    let r := n % d
    let up : Bool := 2 * r > d ∨ (2 * r = d ∧ (sticky = true ∨ q % 2 = 1))
    ((e + 126).toNat) * 2 ^ 23 + q + (if up then 1 else 0)

/-- Model of `strconv.ParseFloat(s, 32)` followed by the conversion
`float32(...)` of its first result: the bit pattern and the error. A string
that is not a number gives `0` and a syntax error; a number too large for a
`float32` gives an infinity and a range error. -/
def ParseFloat (s : String) : Float32 × Option GoError :=
  match special s.data with
  | some (v, n) => if n = s.data.length then (v, none) else (0, some .errSyn)
  | none =>
    match readFloat s.data with
    | none => (0, some .errSyn)
    | some p =>
      if p.mantissa = 0 then (withSign p.neg 0, none)
      else if p.hex then
        let bits := roundBits (p.mantissa * 2 ^ p.exp.toNat) (2 ^ (-p.exp).toNat) p.trunc
        if bits ≥ infBits then (withSign p.neg infBits, some .errRange)
        else (withSign p.neg bits, none)
      else if p.dp > 310 then (withSign p.neg infBits, some .errRange)
      else if p.dp < -330 then (withSign p.neg 0, none)
      else
        let bits := roundBits (p.mantissa * 10 ^ p.exp.toNat) (10 ^ (-p.exp).toNat) false
        if bits ≥ infBits then (withSign p.neg infBits, some .errRange)
        else (withSign p.neg bits, none)

/-! ## Documents, requests and the driver -/

/-- A BSON value as the program handles it. -/
inductive BVal where
  | str (s : String)
  | double (bits : Float32)
  | oid (id : ObjectID)
  deriving DecidableEq, Repr

/-- A document (`bson.M`): field names with their values. -/
abbrev Doc := List (String × BVal)

/-- Go map indexing `doc[k]`: the value of the first field named `k`. -/
def Doc.get (d : Doc) (k : String) : Option BVal :=
  match d with
  | [] => none
  | (k1, v) :: rest => if k1 = k then some v else Doc.get rest k

/-- The `options.ReturnDocument` setting of a find-and-update request. -/
inductive ReturnDocument where
  | before
  | after
  deriving DecidableEq, Repr

/-- A request to the store, as the driver method and its arguments. -/
inductive Request where
  /-- Request `InsertOne(ctx, doc)`. -/
  | insertOne (doc : Doc)
  /-- Request `Find(ctx, filter)`. -/
  | find (filter : Doc)
  /-- Request `FindOneAndUpdate(ctx, filter, bson.M{"$set": set}, opts)`. -/
  | findOneAndUpdate (filter : Doc) (set : Doc) (ret : ReturnDocument)
  /-- Request `DeleteOne(ctx, filter)`. -/
  | deleteOne (filter : Doc)
  deriving DecidableEq, Repr

/-- The driver type `mongo.InsertOneResult`. -/
structure InsertOneResult where
  InsertedID : BVal
  deriving DecidableEq, Repr

/-- The driver type `mongo.DeleteResult`. -/
structure DeleteResult where
  DeletedCount : Nat
  deriving DecidableEq, Repr

/-- The driver type `mongo.Cursor`: the documents to deliver and whether
draining them fails. -/
structure Cursor where
  batch : List Doc
  failing : Bool
  deriving DecidableEq, Repr

/-- The driver type `mongo.SingleResult`: an error, or the raw document (none
when nothing matched). -/
structure SingleResult where
  err : Option GoError
  rdr : Option Doc
  deriving DecidableEq, Repr

/-- What can go wrong between the client and the server during the run. -/
inductive Fault where
  /-- Every request succeeds. -/
  | healthy
  /-- No request reaches the server. -/
  | network
  /-- Writes are applied but their write concern is not satisfied. -/
  | writeConcern
  /-- A cursor is opened but cannot be drained. -/
  | cursor
  deriving DecidableEq, Repr

/-- The store behind the `*mongo.Client` handle: the documents of the
collection `test_db.sales`, the fault in effect, the result of `mongo.Connect`
and the identifier the driver generates for the next inserted document. -/
structure Client where
  docs : List Doc
  fault : Fault
  connectErr : Option GoError
  fresh : ObjectID
  deriving DecidableEq, Repr

/-- A query filter matches a document when every field of the filter is in the
document with an equal value. -/
def docMatches (filter : Doc) (d : Doc) : Bool :=
  filter.all fun kv => decide (d.get kv.1 = some kv.2)

/-- Server side of `$set` for one field: replace the value where the field
exists, else add the field at the end. -/
def setField (d : Doc) (k : String) (v : BVal) : Doc :=
  match d with
  | [] => [(k, v)]
  | (k1, v1) :: rest => if k1 = k then (k, v) :: rest else (k1, v1) :: setField rest k v

/-- Server side of `$set`: every field of `fields` is set, in order. -/
def applySet (d : Doc) (fields : Doc) : Doc :=
  fields.foldl (fun acc kv => setField acc kv.1 kv.2) d

/-- Server side of find-and-update-one without upsert: the first matching
document is updated in place; returns the document before, the document
after, and the new collection, or none when nothing matches. -/
def updateFirst (filter set : Doc) : List Doc → Option (Doc × Doc × List Doc)
  | [] => none
  | d :: ds =>
    if docMatches filter d then some (d, applySet d set, applySet d set :: ds)
    else
      match updateFirst filter set ds with
      | none => none
      | some (pre, post, ds1) => some (pre, post, d :: ds1)

/-- Server side of delete-one: the first matching document is removed; returns
the number removed and the new collection. -/
def deleteFirst (filter : Doc) : List Doc → Nat × List Doc
  | [] => (0, [])
  | d :: ds =>
    if docMatches filter d then (1, ds)
    else ((deleteFirst filter ds).1, d :: (deleteFirst filter ds).2)

/-- Driver `Collection.InsertOne`: the driver adds a generated `_id` to a
document without one; a network error leaves a nil result. -/
def Client.InsertOne (c : Client) (doc : Doc) :
    (Option InsertOneResult × Option GoError) × Client :=
  match c.fault with
  | .network => ((none, some .network), c)
  | f =>
    let id : BVal := match doc.get "_id" with
      | some v => v
      | none => .oid c.fresh
    let stored : Doc := match doc.get "_id" with
      | some _ => doc
      | none => ("_id", id) :: doc
    ((some ⟨id⟩, if f = .writeConcern then some .writeConcern else none),
      { c with docs := c.docs ++ [stored] })

/-- Driver `Collection.Find`: a cursor over the matching documents, or a nil
cursor and an error. -/
def Client.Find (c : Client) (filter : Doc) : Option Cursor × Option GoError :=
  match c.fault with
  | .network => (none, some .network)
  | f => (some ⟨c.docs.filter (docMatches filter), decide (f = .cursor)⟩, none)

/-- Driver `Cursor.All` into a `[]bson.M`. -/
def Cursor.All (cur : Cursor) : Except GoError (List Doc) :=
  if cur.failing then .error .cursor else .ok cur.batch

/-- Driver `Collection.FindOneAndUpdate` with a `$set` update. -/
def Client.FindOneAndUpdate (c : Client) (filter set : Doc) (ret : ReturnDocument) :
    SingleResult × Client :=
  match c.fault with
  | .network => (⟨some .network, none⟩, c)
  | f =>
    match updateFirst filter set c.docs with
    | none => (⟨none, none⟩, c)
    | some (pre, post, ds) =>
      (if f = .writeConcern then ⟨some .writeConcern, none⟩
        else ⟨none, some (if ret = .after then post else pre)⟩,
       { c with docs := ds })

/-- Driver `SingleResult.Decode` into an `inputData`: the struct has no
exported field, so a document decodes without touching it; no document is
`ErrNoDocuments`. -/
def SingleResult.Decode (r : SingleResult) : Option GoError :=
  match r.err with
  | some e => some e
  | none =>
    match r.rdr with
    | none => some .noDocuments
    | some _ => none

/-- Driver `Collection.DeleteOne`. -/
def Client.DeleteOne (c : Client) (filter : Doc) :
    (Option DeleteResult × Option GoError) × Client :=
  match c.fault with
  | .network => ((none, some .network), c)
  | f =>
    ((some ⟨(deleteFirst filter c.docs).1⟩,
      if f = .writeConcern then some .writeConcern else none),
     { c with docs := (deleteFirst filter c.docs).2 })

/-! ## The process: state, events, control -/

/-- The four record operations of the program. -/
inductive Op where
  | createRecord
  | getRecordsFromCollection
  | updateRecord
  | deleteRecord
  deriving DecidableEq, Repr

/-- An operand of a print call. -/
inductive Item where
  | text (s : String)
  | error (e : GoError)
  | value (v : Option BVal)
  | inserted (r : InsertOneResult)
  | deleted (r : Option DeleteResult)
  deriving DecidableEq, Repr

/-- An observable event of a run. -/
inductive Event where
  /-- Call of `fmt.Println` with these operands. -/
  | println (items : List Item)
  /-- Call of `fmt.Printf` with this format and these operands. -/
  | printf (format : String) (items : List Item)
  /-- Call of `log.Println`. -/
  | logPrintln (items : List Item)
  /-- Output of `log.Fatal`, which then exits with status 1. -/
  | logFatal (items : List Item)
  /-- Output of `log.Panic`, which then panics. -/
  | logPanic (items : List Item)
  /-- A request sent through the client to `Database(db).Collection(coll)`. -/
  | request (db coll : String) (r : Request)
  /-- Entry into one of the record operations. -/
  | call (op : Op)
  deriving DecidableEq, Repr

/-- The state of the process. -/
structure World where
  /-- Lines of standard input not read yet. -/
  stdin : List String
  /-- The store behind the client handle. -/
  client : Client
  /-- The events so far, oldest first. -/
  out : List Event
  deriving DecidableEq, Repr

/-- How a function call ends: it returns a value, the process exits through
`log.Fatal`, or the goroutine panics. -/
inductive Step (α : Type) where
  | ret (a : α)
  | fatal
  | panicked
  deriving DecidableEq, Repr

/-- A Go function body: from a process state to how it ends and the state
then. -/
def Prog (α : Type) : Type := World → Step α × World

/-- Sequencing: the second part runs only when the first returns. -/
def Prog.bind {α β : Type} (m : Prog α) (f : α → Prog β) : Prog β := fun w =>
  match m w with
  | (.ret a, w1) => f a w1
  | (.fatal, w1) => (.fatal, w1)
  | (.panicked, w1) => (.panicked, w1)

instance : Monad Prog where
  pure a := fun w => (.ret a, w)
  bind := Prog.bind

/-- Records an event. -/
def emit (e : Event) : Prog Unit := fun w => (.ret (), { w with out := w.out ++ [e] })

/-- Call of `log.Fatal`: prints and exits. -/
def logFatal {α : Type} (items : List Item) : Prog α := fun w =>
  (.fatal, { w with out := w.out ++ [.logFatal items] })

/-- Call of `log.Panic`: prints and panics. -/
def logPanic {α : Type} (items : List Item) : Prog α := fun w =>
  (.panicked, { w with out := w.out ++ [.logPanic items] })

/-- A nil pointer dereference: a run-time panic. -/
def nilDereference {α : Type} : Prog α := fun w => (.panicked, w)

/-- Calls `scanner.Scan()` then `scanner.Text()`: the next line, or `false`
and the empty text at end of input. -/
def scan : Prog (Bool × String) := fun w =>
  match w.stdin with
  | [] => (.ret (false, ""), w)
  | l :: rest => (.ret (true, l), { w with stdin := rest })

/-- Sends `InsertOne` to `Database(db).Collection(coll)`. -/
def InsertOne (db coll : String) (doc : Doc) :
    Prog (Option InsertOneResult × Option GoError) := fun w =>
  ((.ret (w.client.InsertOne doc).1),
    { w with client := (w.client.InsertOne doc).2,
             out := w.out ++ [.request db coll (.insertOne doc)] })

/-- Sends `Find` to `Database(db).Collection(coll)`. -/
def Find (db coll : String) (filter : Doc) : Prog (Option Cursor × Option GoError) :=
  fun w => (.ret (w.client.Find filter),
    { w with out := w.out ++ [.request db coll (.find filter)] })

/-- Sends `FindOneAndUpdate` to `Database(db).Collection(coll)`. -/
def FindOneAndUpdate (db coll : String) (filter set : Doc) (ret : ReturnDocument) :
    Prog SingleResult := fun w =>
  (.ret (w.client.FindOneAndUpdate filter set ret).1,
    { w with client := (w.client.FindOneAndUpdate filter set ret).2,
             out := w.out ++ [.request db coll (.findOneAndUpdate filter set ret)] })

/-- Sends `DeleteOne` to `Database(db).Collection(coll)`. -/
def DeleteOne (db coll : String) (filter : Doc) :
    Prog (Option DeleteResult × Option GoError) := fun w =>
  (.ret (w.client.DeleteOne filter).1,
    { w with client := (w.client.DeleteOne filter).2,
             out := w.out ++ [.request db coll (.deleteOne filter)] })

/-! ## The program -/

/-- The struct `inputData`. -/
structure inputData where
  id : String
  name : String
  revenue : Float32
  deriving DecidableEq, Repr

/-- One hexadecimal digit, lower case. -/
def hexDigit (n : Nat) : Char :=
  if n < 10 then Char.ofNat (48 + n) else Char.ofNat (87 + n)

/-- The method `ObjectID.Hex`. -/
def Hex (id : ObjectID) : String :=
  ⟨id.foldr (fun b acc => hexDigit (b / 16) :: hexDigit (b % 16) :: acc) []⟩

/-- The function `getInputData`. -/
def getInputData : Prog inputData := do
  let data : inputData := ⟨"", "", 0⟩
  emit (.println [.text "Insert the name: "])
  let (ok, text) ← scan
  let data := if ok then { data with name := text } else data
  emit (.println [.text "Insert the revenue value: "])
  let (ok, text) ← scan
  if ok then
    let (revenue, err) := ParseFloat text
    match err with
    | some e => emit (.println [.text "Error parsing revenue: ", .error e])
    | none => pure ()
    pure { data with revenue := revenue }
  else
    pure data

/-- The function `createRecord`. -/
def createRecord (data : inputData) : Prog Unit := do
  emit (.call .createRecord)
  let record : Doc := [("name", .str data.name), ("revenue", .double data.revenue)]
  let (success, err) ← InsertOne "test_db" "sales" record
  match err with
  | some _ => emit (.println [.text "Could not insert record!"])
  | none => pure ()
  match success with
  | none => nilDereference
  | some res =>
    let _data : inputData := match res.InsertedID with
      | .oid objectid => { data with id := Hex objectid }
      | _ => data
    emit (.printf "Created record: %s" [.inserted res])

/-- The loop `for _, doc := range documents` of `getRecordsFromCollection`. -/
def printDocuments : List Doc → Prog Unit
  | [] => pure ()
  | doc :: rest => do
    emit (.println [.value (doc.get "_id"), .value (doc.get "name"),
      .value (doc.get "revenue")])
    printDocuments rest

/-- The function `getRecordsFromCollection`. -/
def getRecordsFromCollection : Prog Unit := do
  emit (.call .getRecordsFromCollection)
  let (all_records_cursor, err) ← Find "test_db" "sales" []
  match err with
  | some _ => emit (.println [.text "Could not read"])
  | none => pure ()
  match all_records_cursor with
  | none => nilDereference
  | some cur =>
    match cur.All with
    | .error e => logPanic [.error e]
    | .ok documents => printDocuments documents

/-- The function `getRecordID`. -/
def getRecordID : Prog String := do
  emit (.println [.text "What is the record ID? "])
  let (_, custom_id) ← scan
  pure (TrimSpace custom_id)

/-- The function `updateRecord`. -/
def updateRecord : Prog Unit := do
  emit (.call .updateRecord)
  let retrieved_id ← getRecordID
  match ObjectIDFromHex retrieved_id with
  | .error err => logFatal [.text "Invalid ID format:", .error err]
  | .ok objectID =>
    let filter : Doc := [("_id", .oid objectID)]
    let updated_user_data ← getInputData
    let update : Doc :=
      [("name", .str updated_user_data.name), ("revenue", .double updated_user_data.revenue)]
    let result ← FindOneAndUpdate "test_db" "sales" filter update .after
    match result.Decode with
    | some e => emit (.logPrintln [.text "Failed to update record: ", .error e])
    | none => pure ()

/-- The function `deleteRecord`. -/
def deleteRecord : Prog Unit := do
  emit (.call .deleteRecord)
  let retrieved_id ← getRecordID
  match ObjectIDFromHex retrieved_id with
  | .error err => logFatal [.text "Invalid ID format:", .error err]
  | .ok objectID =>
    let filter : Doc := [("_id", .oid objectID)]
    let (deleted, err) ← DeleteOne "test_db" "sales" filter
    match err with
    | some e => emit (.logPrintln [.text "Could not delete record: ", .error e])
    | none => emit (.println [.text "Successfully deleted: ", .deleted deleted])

/-- The menu that `main` prints. -/
def menuText : String :=
  "CRUD operations\n" ++
  "1 - Create record to be inserted\n" ++
  "2 - Read record\n" ++
  "3 - Update record\n" ++
  "4 - Delete Record\n" ++
  "0 - Exit" ++
  "\nSelect your option: "

/-- The body of the loop of `main` after `option := scanner.Text()`: `some` is
a `return` of `main` with the run up to it, `none` falls out of the `switch`
to the next iteration. -/
def menuBody (option : String) (w : World) : Option (Step Unit × World) :=
  match ParseInt option with
  | (_, some _) => some (emit (.println [.text "Option must be an integer"]) w)
  | (optionInt, none) =>
    if optionInt = 1 then
      some ((do let userData ← getInputData; createRecord userData) w)
    else if optionInt = 2 then some (getRecordsFromCollection w)
    else if optionInt = 3 then some (updateRecord w)
    else if optionInt = 4 then some (deleteRecord w)
    else if optionInt = 0 then some (.ret (), w)
    else none

/-- The loop `for scanner.Text() != "0"` of `main`, on the unread lines and
the current text of the scanner of `main`. -/
def menuLoop : List String → String → World → Step Unit × World
  | lines, text, w =>
    if text = "0" then (.ret (), w)
    else
      let w1 : World := { w with out := w.out ++ [.println [.text menuText]] }
      match lines with
      | [] =>
        -- end of input: Scan fails and the text is empty, which is no integer
        match menuBody "" w1 with
        | some r => r
        | none => (.ret (), w1)
      | l :: rest =>
        match menuBody l { w1 with stdin := rest } with
        | some r => r
        | none => menuLoop rest l { w1 with stdin := rest }

/-- The function `main`: connect, then the menu loop on a scanner whose text
is empty before the first `Scan`. -/
def main : Prog Unit := fun w =>
  match w.client.connectErr with
  | some err => logFatal [.error err] w
  | none => menuLoop w.stdin "" w

/-! ## Vocabulary of the statements -/

/-- A string of exactly 24 hexadecimal digits. -/
def isObjectIDHex (s : String) : Bool :=
  s.data.length == 24 && s.data.all fun c => (hexVal c).isSome

/-- The requests recorded in a trace, oldest first. -/
def requests : List Event → List (String × String × Request)
  | [] => []
  | .request db coll r :: rest => (db, coll, r) :: requests rest
  | _ :: rest => requests rest

/-- The record operations entered in a trace, oldest first. -/
def calls : List Event → List Op
  | [] => []
  | .call op :: rest => op :: calls rest
  | _ :: rest => calls rest

/-- The event of `main` printing its menu. -/
def menuEvent : Event := .println [.text menuText]

/-- A selection the `switch` of `main` has no case for: a line that parses as
an integer other than 0, 1, 2, 3 and 4. -/
def unhandled (l : String) : Bool :=
  match ParseInt l with
  | (n, none) => !(n == 1 || n == 2 || n == 3 || n == 4 || n == 0)
  | (_, some _) => false

/-- The event list of the error report of `getInputData`, if any. -/
def revenueReport : Option GoError → List Event
  | some e => [.println [.text "Error parsing revenue: ", .error e]]
  | none => []

/-- The event list of the failure report of `updateRecord`, if any. -/
def updateReport : Option GoError → List Event
  | some e => [.logPrintln [.text "Failed to update record: ", .error e]]
  | none => []

/-- The event that `deleteRecord` ends with, from what `DeleteOne` returned. -/
def deleteReport : Option DeleteResult × Option GoError → List Event
  | (_, some e) => [.logPrintln [.text "Could not delete record: ", .error e]]
  | (deleted, none) => [.println [.text "Successfully deleted: ", .deleted deleted]]

/-- How many times the menu was printed in a trace. -/
def menus : List Event → Nat
  | [] => 0
  | e :: rest => if e = menuEvent then menus rest + 1 else menus rest

/-- No two documents of the collection have the same `_id`. -/
def uniqueIds (docs : List Doc) : Prop :=
  (docs.map fun d => d.get "_id").Nodup

instance (docs : List Doc) : Decidable (uniqueIds docs) := by
  unfold uniqueIds
  infer_instance

/-- The filter `bson.M{"_id": objectID}` of `updateRecord` and `deleteRecord`. -/
def idFilter (oid : ObjectID) : Doc := [("_id", .oid oid)]

/-- The fields under `$set` in the update of `updateRecord`. -/
def setFields (d : inputData) : Doc :=
  [("name", .str d.name), ("revenue", .double d.revenue)]

/-- The request that `updateRecord` sends for identifier `oid` and the
collected fields `d`. -/
def updateRequest (oid : ObjectID) (d : inputData) : Request :=
  .findOneAndUpdate (idFilter oid) (setFields d) .after

/-- An identifier for the examples: `671aa05bf8333e0581fe6911`. -/
def sampleId : ObjectID := [0x67, 0x1a, 0xa0, 0x5b, 0xf8, 0x33, 0x3e, 0x05, 0x81, 0xfe, 0x69, 0x11]

/-- A healthy store for the examples, with two documents. -/
def sampleStore : Client :=
  ⟨[[("_id", .oid [1, 2, 3, 4, 5, 6, 7, 8, 9, 10, 11, 12]), ("name", .str "Thing"),
      ("revenue", .double 0)],
    [("_id", .oid sampleId), ("name", .str "Widget"), ("revenue", .double 0x41480000)]],
    .healthy, none, [0, 0, 0, 0, 0, 0, 0, 0, 0, 0, 0, 1]⟩

/-- The collection without the documents whose `_id` is `oid`. -/
def withoutId (oid : ObjectID) (docs : List Doc) : List Doc :=
  docs.filter fun doc => decide (doc.get "_id" ≠ some (.oid oid))

/-! ## The library models on sample inputs -/

/-- With fuel `n` the halving loop computes the floor of the binary logarithm
of a positive `n`. -/
theorem log2Fuel_spec (fuel : Nat) : ∀ n : Nat, 0 < n → n ≤ fuel →
    2 ^ log2Fuel fuel n ≤ n ∧ n < 2 ^ (log2Fuel fuel n + 1) := by
  induction fuel with
  | zero => intro n h0 h1; omega
  | succ f ih =>
    intro n h0 h1
    unfold log2Fuel
    by_cases h2 : n < 2
    · simp only [h2, if_true]
      omega
    · simp only [h2, if_false]
      have hd := ih (n / 2) (by omega) (by omega)
      have hm := Nat.div_add_mod n 2
      have hlt := Nat.mod_lt n (show 0 < 2 by decide)
      rw [pow_succ, pow_succ]
      constructor <;> omega

set_option maxRecDepth 4000 in
/-- The parsing models on sample inputs: the values of the examples of the
specification, a text that is no number, and numbers out of range. -/
theorem parse_samples :
    ParseInt "3" = (3, none) ∧ ParseInt "-0" = (0, none) ∧
      ParseInt "abc" = (0, some .errSyn) ∧ ParseInt "" = (0, some .errSyn) ∧
      ParseInt "9223372036854775808" = (2 ^ 63 - 1, some .errRange) ∧
      ParseFloat "12.5" = (0x41480000, none) ∧ ParseFloat "9.0" = (0x41100000, none) ∧
      ParseFloat "0.1" = (0x3DCCCCCD, none) ∧ ParseFloat "0x1p-2" = (0x3E800000, none) ∧
      ParseFloat "abc" = (0, some .errSyn) ∧ ParseFloat "12.5 " = (0, some .errSyn) ∧
      ParseFloat "3.4028235e38" = (0x7F7FFFFF, none) ∧
      ParseFloat "-1e39" = (0xFF800000, some .errRange) ∧
      ParseFloat "inf" = (0x7F800000, none) ∧ ParseFloat "1e-46" = (0, none) ∧
      TrimSpace "  ab c\t" = "ab c" ∧
      ObjectIDFromHex "671aa05bf8333e0581fe6911" = .ok sampleId := by
  repeat' apply And.intro
  all_goals first
    | decide
    | rfl

/-! ## Running a sequence -/

@[simp]
theorem bind_run {α β : Type} (m : Prog α) (f : α → Prog β) (w : World) :
    (m >>= f) w = match m w with
      | (.ret a, w1) => f a w1
      | (.fatal, w1) => (.fatal, w1)
      | (.panicked, w1) => (.panicked, w1) := rfl

@[simp]
theorem pure_run {α : Type} (a : α) (w : World) :
    (pure a : Prog α) w = (.ret a, w) := rfl

@[simp]
theorem emit_run (e : Event) (w : World) :
    emit e w = (.ret (), { w with out := w.out ++ [e] }) := rfl

@[simp]
theorem scan_cons (l : String) (rest : List String) (c : Client) (out : List Event) :
    scan ⟨l :: rest, c, out⟩ = (.ret (true, l), ⟨rest, c, out⟩) := rfl

@[simp]
theorem scan_nil (c : Client) (out : List Event) :
    scan ⟨[], c, out⟩ = (.ret (false, ""), ⟨[], c, out⟩) := rfl

theorem getRecordID_cons (line : String) (rest : List String) (c : Client) (out : List Event) :
    getRecordID ⟨line :: rest, c, out⟩ =
      (.ret (TrimSpace line), ⟨rest, c, out ++ [.println [.text "What is the record ID? "]]⟩) := by
  simp [getRecordID]

theorem getRecordID_nil (c : Client) (out : List Event) :
    getRecordID ⟨[], c, out⟩ =
      (.ret (TrimSpace ""), ⟨[], c, out ++ [.println [.text "What is the record ID? "]]⟩) := by
  simp [getRecordID]

/-! ## Trimming -/

theorem dropWhile_head_not (p : Char → Bool) (l : List Char) (x : Char)
    (h : (l.dropWhile p).head? = some x) : p x = false := by
  induction l with
  | nil => simp at h
  | cons a t ih =>
    by_cases ha : p a = true
    · simp [List.dropWhile, ha] at h
      exact ih h
    · simp [List.dropWhile, ha] at h
      subst h
      simpa using ha

theorem takeWhile_all (p : Char → Bool) (l : List Char) :
    ∀ x ∈ l.takeWhile p, p x = true := by
  intro x hx
  exact List.mem_takeWhile_imp hx

theorem trimRight_split (l : List Char) :
    l = trimRight l ++ (l.reverse.takeWhile isSpace).reverse := by
  have h := List.takeWhile_append_dropWhile isSpace l.reverse
  have h2 := congrArg List.reverse h
  simp only [List.reverse_append, List.reverse_reverse] at h2
  simpa [trimRight] using h2.symm

theorem trimRight_getLast_not (l : List Char) (x : Char)
    (h : (trimRight l).getLast? = some x) : isSpace x = false := by
  unfold trimRight at h
  rw [List.getLast?_reverse] at h
  exact dropWhile_head_not isSpace _ x h

theorem trimSpaceChars_split (l : List Char) :
    ∃ pre post : List Char, l = pre ++ trimSpaceChars l ++ post ∧
      (∀ x ∈ pre, isSpace x = true) ∧ (∀ x ∈ post, isSpace x = true) := by
  refine ⟨l.takeWhile isSpace, ((l.dropWhile isSpace).reverse.takeWhile isSpace).reverse,
    ?_, takeWhile_all isSpace l, ?_⟩
  · have h1 := (List.takeWhile_append_dropWhile isSpace l).symm
    have h2 := trimRight_split (l.dropWhile isSpace)
    unfold trimSpaceChars
    rw [List.append_assoc, ← h2]
    exact h1
  · intro x hx
    exact takeWhile_all isSpace _ x (List.mem_reverse.mp hx)

theorem trimSpaceChars_head_not (l : List Char) (x : Char)
    (h : (trimSpaceChars l).head? = some x) : isSpace x = false := by
  unfold trimSpaceChars at h
  have hs := trimRight_split (l.dropWhile isSpace)
  apply dropWhile_head_not isSpace l x
  rw [hs]
  cases ht : trimRight (List.dropWhile isSpace l) with
  | nil => rw [ht] at h; simp at h
  | cons a t => rw [ht] at h; simpa using h

theorem trimSpaceChars_getLast_not (l : List Char) (x : Char)
    (h : (trimSpaceChars l).getLast? = some x) : isSpace x = false :=
  trimRight_getLast_not _ x h

theorem dropWhile_id (l : List Char) (h : ∀ x, l.head? = some x → isSpace x = false) :
    l.dropWhile isSpace = l := by
  cases l with
  | nil => rfl
  | cons a t =>
    have := h a rfl
    simp [List.dropWhile, this]

theorem trimRight_id (l : List Char) (h : ∀ x, l.getLast? = some x → isSpace x = false) :
    trimRight l = l := by
  unfold trimRight
  have : l.reverse.dropWhile isSpace = l.reverse := by
    apply dropWhile_id
    intro x hx
    rw [List.head?_reverse] at hx
    exact h x hx
  rw [this, List.reverse_reverse]

theorem trimSpaceChars_id (l : List Char) (h1 : ∀ x, l.head? = some x → isSpace x = false)
    (h2 : ∀ x, l.getLast? = some x → isSpace x = false) : trimSpaceChars l = l := by
  unfold trimSpaceChars
  rw [dropWhile_id l h1, trimRight_id l h2]

/-- C7. `getRecordID` prompts, reads one line and returns it trimmed: the line
is the result between two runs of white space, the result neither starts nor
ends with white space, a line with no white space at its ends is returned
unchanged, and there is no validation (every line, and the end of input, gives
a result). -/
theorem getRecordID_returns_trimmed_line (line : String) (rest : List String) (c : Client)
    (out : List Event) :
    getRecordID ⟨line :: rest, c, out⟩ =
        (.ret (TrimSpace line),
          ⟨rest, c, out ++ [.println [.text "What is the record ID? "]]⟩) ∧
      (getRecordID ⟨[], c, out⟩).1 = .ret "" ∧
      (∃ pre post : List Char, line.data = pre ++ (TrimSpace line).data ++ post ∧
        (∀ x ∈ pre, isSpace x = true) ∧ (∀ x ∈ post, isSpace x = true)) ∧
      (∀ x, (TrimSpace line).data.head? = some x → isSpace x = false) ∧
      (∀ x, (TrimSpace line).data.getLast? = some x → isSpace x = false) ∧
      ((∀ x, line.data.head? = some x → isSpace x = false) →
        (∀ x, line.data.getLast? = some x → isSpace x = false) → TrimSpace line = line) := by
  refine ⟨getRecordID_cons line rest c out, ?_, trimSpaceChars_split line.data,
    trimSpaceChars_head_not line.data, trimSpaceChars_getLast_not line.data, ?_⟩
  · rw [getRecordID_nil]
    rfl
  · intro h1 h2
    show (⟨trimSpaceChars line.data⟩ : String) = line
    rw [trimSpaceChars_id line.data h1 h2]

/-! ## Identifiers -/

theorem hexVal_utf8Size (c : Char) (h : (hexVal c).isSome = true) : c.utf8Size = 1 := by
  have hc : c.toNat ≤ 127 := by
    unfold hexVal at h
    simp only at h
    split_ifs at h with h1 h2 h3
    · omega
    · omega
    · omega
    · simp at h
  unfold Char.utf8Size
  have : c.val ≤ 127 := by
    change c.val.toNat ≤ 127
    exact hc
  simp [this]

theorem utf8ByteSize_go_hex (l : List Char) (h : ∀ c ∈ l, (hexVal c).isSome = true) :
    String.utf8ByteSize.go l = l.length := by
  induction l with
  | nil => rfl
  | cons a t ih =>
    simp only [String.utf8ByteSize.go, List.length_cons]
    rw [ih (fun c hc => h c (List.mem_cons_of_mem a hc)), hexVal_utf8Size a (h a (List.mem_cons_self a t))]

theorem hexDecode_ok_all (l : List Char) (bs : List Nat) (h : hexDecode l = .ok bs) :
    ∀ c ∈ l, (hexVal c).isSome = true := by
  induction l using hexDecode.induct generalizing bs with
  | case1 p q rest hp => simp [hexDecode, hp] at h
  | case2 p q rest a hp hq => simp [hexDecode, hp, hq] at h
  | case3 p q rest a hp b hq e hr ih => simp [hexDecode, hp, hq, hr] at h
  | case4 p q rest a hp b hq bs1 hr ih =>
    intro c hc
    simp only [List.mem_cons] at hc
    rcases hc with hc | hc | hc
    · simp [hc, hp]
    · simp [hc, hq]
    · exact ih bs1 hr c hc
  | case5 p hp => simp [hexDecode, hp] at h
  | case6 p a hp => simp [hexDecode, hp] at h
  | case7 => simp

theorem hexDecode_all_ok (n : Nat) : ∀ l : List Char, l.length = 2 * n →
    (∀ c ∈ l, (hexVal c).isSome = true) → ∃ bs, hexDecode l = .ok bs := by
  induction n with
  | zero =>
    intro l hl _
    have : l = [] := List.length_eq_zero.mp (by omega)
    subst this
    exact ⟨[], rfl⟩
  | succ n ih =>
    intro l hl hall
    match l, hl, hall with
    | p :: q :: rest, hl, hall =>
      have hp := hall p (by simp)
      have hq := hall q (by simp)
      have hrest : ∀ c ∈ rest, (hexVal c).isSome = true := fun c hc => hall c (by simp [hc])
      obtain ⟨bs, hbs⟩ := ih rest (by simp at hl; omega) hrest
      obtain ⟨a, ha⟩ := Option.isSome_iff_exists.mp hp
      obtain ⟨b, hb⟩ := Option.isSome_iff_exists.mp hq
      exact ⟨(a * 16 + b) :: bs, by simp [hexDecode, ha, hb, hbs]⟩
    | [_], hl, _ => simp at hl; omega
    | [], hl, _ => simp at hl

theorem ObjectIDFromHex_ok_iff (s : String) :
    (∃ id, ObjectIDFromHex s = .ok id) ↔ isObjectIDHex s = true := by
  constructor
  · rintro ⟨id, h⟩
    unfold ObjectIDFromHex at h
    split_ifs at h with hsz
    have hsz : s.utf8ByteSize = 24 := not_not.mp hsz
    have hall := hexDecode_ok_all s.data id h
    have hlen : s.data.length = 24 := by
      have := utf8ByteSize_go_hex s.data hall
      have h2 : s.utf8ByteSize = String.utf8ByteSize.go s.data := by
        cases s; rfl
      omega
    simp only [isObjectIDHex, hlen, beq_self_eq_true, Bool.true_and, List.all_eq_true]
    exact hall
  · intro h
    simp only [isObjectIDHex, Bool.and_eq_true, beq_iff_eq, List.all_eq_true] at h
    obtain ⟨hlen, hall⟩ := h
    have hsz : s.utf8ByteSize = 24 := by
      have := utf8ByteSize_go_hex s.data hall
      have h2 : s.utf8ByteSize = String.utf8ByteSize.go s.data := by
        cases s; rfl
      omega
    obtain ⟨bs, hbs⟩ := hexDecode_all_ok 12 s.data (by omega) hall
    exact ⟨bs, by simp [ObjectIDFromHex, hsz, hbs]⟩

theorem ObjectIDFromHex_error_of_not (s : String) (h : isObjectIDHex s = false) :
    ∃ e, ObjectIDFromHex s = .error e := by
  cases hr : ObjectIDFromHex s with
  | error e => exact ⟨e, rfl⟩
  | ok id =>
    have := (ObjectIDFromHex_ok_iff s).mp ⟨id, hr⟩
    simp [h] at this

theorem requests_append (a b : List Event) : requests (a ++ b) = requests a ++ requests b := by
  induction a with
  | nil => rfl
  | cons e t ih => cases e <;> simp [requests, ih]

theorem updateRecord_error (line : String) (rest : List String) (c : Client)
    (out : List Event) (e : GoError) (h : ObjectIDFromHex (TrimSpace line) = .error e) :
    updateRecord ⟨line :: rest, c, out⟩ =
      (.fatal, ⟨rest, c, out ++ [.call .updateRecord,
        .println [.text "What is the record ID? "],
        .logFatal [.text "Invalid ID format:", .error e]]⟩) := by
  simp [updateRecord, getRecordID, h, logFatal]

theorem deleteRecord_error (line : String) (rest : List String) (c : Client)
    (out : List Event) (e : GoError) (h : ObjectIDFromHex (TrimSpace line) = .error e) :
    deleteRecord ⟨line :: rest, c, out⟩ =
      (.fatal, ⟨rest, c, out ++ [.call .deleteRecord,
        .println [.text "What is the record ID? "],
        .logFatal [.text "Invalid ID format:", .error e]]⟩) := by
  simp [deleteRecord, getRecordID, h, logFatal]

/-- C3. When the identifier line, trimmed, is not 24 hexadecimal digits,
`ObjectIDFromHex` fails, and both `updateRecord` and `deleteRecord` end in
`log.Fatal` right after the identifier prompt: the store is untouched, no
request is recorded, and the lines after the identifier are still unread (in
`updateRecord` the name and the revenue are neither prompted for nor read). -/
theorem malformed_identifier_is_fatal (line : String) (rest : List String) (c : Client)
    (out : List Event) (h : isObjectIDHex (TrimSpace line) = false) :
    ∃ e, ObjectIDFromHex (TrimSpace line) = .error e ∧
      updateRecord ⟨line :: rest, c, out⟩ =
        (.fatal, ⟨rest, c, out ++ [.call .updateRecord,
          .println [.text "What is the record ID? "],
          .logFatal [.text "Invalid ID format:", .error e]]⟩) ∧
      deleteRecord ⟨line :: rest, c, out⟩ =
        (.fatal, ⟨rest, c, out ++ [.call .deleteRecord,
          .println [.text "What is the record ID? "],
          .logFatal [.text "Invalid ID format:", .error e]]⟩) ∧
      requests (updateRecord ⟨line :: rest, c, out⟩).2.out = requests out ∧
      requests (deleteRecord ⟨line :: rest, c, out⟩).2.out = requests out := by
  obtain ⟨e, he⟩ := ObjectIDFromHex_error_of_not _ h
  refine ⟨e, he, updateRecord_error line rest c out e he,
    deleteRecord_error line rest c out e he, ?_, ?_⟩
  · rw [updateRecord_error line rest c out e he]
    simp [requests_append, requests]
  · rw [deleteRecord_error line rest c out e he]
    simp [requests_append, requests]

/-- An identifier of 22 digits between blanks: both operations end in `log.Fatal`
and the two lines after it stay unread. -/
theorem malformed_identifier_is_fatal_witness :
    ∃ e, ObjectIDFromHex (TrimSpace " 671aa05bf8333e0581fe69 ") = .error e ∧
      updateRecord ⟨[" 671aa05bf8333e0581fe69 ", "Gadget", "9.0"], ⟨[], .healthy, none, []⟩, []⟩ =
        (.fatal, ⟨["Gadget", "9.0"], ⟨[], .healthy, none, []⟩, [] ++ [.call .updateRecord,
          .println [.text "What is the record ID? "],
          .logFatal [.text "Invalid ID format:", .error e]]⟩) ∧
      deleteRecord ⟨[" 671aa05bf8333e0581fe69 ", "Gadget", "9.0"], ⟨[], .healthy, none, []⟩, []⟩ =
        (.fatal, ⟨["Gadget", "9.0"], ⟨[], .healthy, none, []⟩, [] ++ [.call .deleteRecord,
          .println [.text "What is the record ID? "],
          .logFatal [.text "Invalid ID format:", .error e]]⟩) ∧
      requests (updateRecord
        ⟨[" 671aa05bf8333e0581fe69 ", "Gadget", "9.0"], ⟨[], .healthy, none, []⟩, []⟩).2.out =
          requests [] ∧
      requests (deleteRecord
        ⟨[" 671aa05bf8333e0581fe69 ", "Gadget", "9.0"], ⟨[], .healthy, none, []⟩, []⟩).2.out =
          requests [] :=
  malformed_identifier_is_fatal " 671aa05bf8333e0581fe69 " ["Gadget", "9.0"]
    ⟨[], .healthy, none, []⟩ [] (by decide)

/-! ## The menu -/

theorem calls_append (a b : List Event) : calls (a ++ b) = calls a ++ calls b := by
  induction a with
  | nil => rfl
  | cons e t ih => cases e <;> simp [calls, ih]

theorem calls_replicate_menu (n : Nat) : calls (List.replicate n menuEvent) = [] := by
  induction n with
  | zero => rfl
  | succ n ih => rw [List.replicate_succ]; exact ih

theorem requests_replicate_menu (n : Nat) : requests (List.replicate n menuEvent) = [] := by
  induction n with
  | zero => rfl
  | succ n ih => rw [List.replicate_succ]; exact ih

theorem menuBody_unhandled (l : String) (w : World) (h : unhandled l = true) :
    menuBody l w = none := by
  unfold unhandled at h
  unfold menuBody
  split at h
  · rename_i n hn
    rw [hn]
    simp only [Bool.not_eq_true', Bool.or_eq_false_iff, beq_eq_false_iff_ne, ne_eq] at h
    simp [h.1.1.1.1, h.1.1.1.2, h.1.1.2, h.1.2, h.2]
  · simp at h

theorem unhandled_ne_zero (l : String) (h : unhandled l = true) : l ≠ "0" := by
  intro h0
  subst h0
  revert h
  decide

theorem menuBody_error (l : String) (w : World) (h : (ParseInt l).2 ≠ none) :
    menuBody l w = some (.ret (), { w with out := w.out ++ [.println [.text "Option must be an integer"]] }) := by
  unfold menuBody
  split
  · rfl
  · rename_i n hn
    rw [hn] at h
    exact absurd rfl h

theorem menuLoop_unhandled (pre : List String) (h : ∀ x ∈ pre, unhandled x = true) :
    ∀ (tail : List String) (text : String) (c : Client) (out : List Event), text ≠ "0" →
      ∃ text1, text1 ≠ "0" ∧
        menuLoop (pre ++ tail) text ⟨pre ++ tail, c, out⟩ =
          menuLoop tail text1 ⟨tail, c, out ++ List.replicate pre.length menuEvent⟩ := by
  induction pre with
  | nil =>
    intro tail text c out ht
    exact ⟨text, ht, by simp⟩
  | cons a t ih =>
    intro tail text c out ht
    have ha := h a (List.mem_cons_self a t)
    obtain ⟨text1, h1, h2⟩ := ih (fun x hx => h x (List.mem_cons_of_mem a hx)) tail a c
      (out ++ [menuEvent]) (unhandled_ne_zero a ha)
    refine ⟨text1, h1, ?_⟩
    rw [List.cons_append, menuLoop]
    simp only [ht, if_false]
    rw [menuBody_unhandled a _ ha]
    simp only
    rw [show (out ++ [Event.println [Item.text menuText]]) = out ++ [menuEvent] from rfl, h2]
    simp [List.replicate_succ, List.append_assoc]

theorem menuBody_handled (l : String) (w : World) (h : unhandled l = false) :
    ∃ r, menuBody l w = some r := by
  cases hb : menuBody l w with
  | some r => exact ⟨r, rfl⟩
  | none =>
    exfalso
    unfold menuBody at hb
    unfold unhandled at h
    split at hb
    · simp at hb
    · rename_i n hn
      rw [hn] at h
      simp only at h
      split_ifs at hb with h1 h2 h3 h4 h5
      simp [h1, h2, h3, h4, h5] at h

theorem main_selection (pre : List String) (l : String) (rest : List String) (c : Client)
    (out : List Event) (hc : c.connectErr = none) (hpre : ∀ x ∈ pre, unhandled x = true)
    (hl : unhandled l = false) :
    menuBody l ⟨rest, c, out ++ List.replicate (pre.length + 1) menuEvent⟩ =
      some (main ⟨pre ++ l :: rest, c, out⟩) := by
  obtain ⟨text1, h1, h2⟩ := menuLoop_unhandled pre hpre (l :: rest) "" c out (by decide)
  obtain ⟨r, hr⟩ := menuBody_handled l
    ⟨rest, c, out ++ List.replicate (pre.length + 1) menuEvent⟩ hl
  have hout : out ++ List.replicate pre.length menuEvent ++ [Event.println [Item.text menuText]]
      = out ++ List.replicate (pre.length + 1) menuEvent := by
    rw [List.replicate_succ', List.append_assoc]
    rfl
  rw [hr]
  unfold main
  simp only [hc]
  rw [h2, menuLoop]
  simp only [h1, if_false, hout, hr]

theorem main_end_of_input (pre : List String) (c : Client) (out : List Event)
    (hc : c.connectErr = none) (hpre : ∀ x ∈ pre, unhandled x = true) :
    main ⟨pre, c, out⟩ =
      (.ret (), ⟨[], c, out ++ List.replicate (pre.length + 1) menuEvent ++
        [.println [.text "Option must be an integer"]]⟩) := by
  obtain ⟨text1, h1, h2⟩ := menuLoop_unhandled pre hpre [] "" c out (by decide)
  have hout : out ++ List.replicate pre.length menuEvent ++ [Event.println [Item.text menuText]]
      = out ++ List.replicate (pre.length + 1) menuEvent := by
    rw [List.replicate_succ', List.append_assoc]
    rfl
  rw [List.append_nil] at h2
  unfold main
  simp only [hc]
  rw [h2, menuLoop]
  simp only [h1, if_false, hout]
  rw [menuBody_error "" _ (by decide)]

theorem unhandled_of_error (l : String) (h : (ParseInt l).2 ≠ none) : unhandled l = false := by
  unfold unhandled
  split
  · rename_i n hn
    rw [hn] at h
    exact absurd rfl h
  · rfl

/-- C4. When a line read by the menu does not parse as a 64-bit decimal
integer (after any number of selections the switch has no case for), `main`
prints the menu, prints "Option must be an integer" and returns: no record
operation is entered, no request is recorded, and the store is unchanged. The
same holds at the end of input, where the text read is empty. -/
theorem nonnumeric_selection_exits (pre : List String) (l : String) (rest : List String)
    (c : Client) (out : List Event) (hc : c.connectErr = none)
    (hpre : ∀ x ∈ pre, unhandled x = true) (hl : (ParseInt l).2 ≠ none) :
    main ⟨pre ++ l :: rest, c, out⟩ =
        (.ret (), ⟨rest, c, out ++ List.replicate (pre.length + 1) menuEvent ++
          [.println [.text "Option must be an integer"]]⟩) ∧
      calls (main ⟨pre ++ l :: rest, c, out⟩).2.out = calls out ∧
      requests (main ⟨pre ++ l :: rest, c, out⟩).2.out = requests out ∧
      (ParseInt "").2 ≠ none ∧
      main ⟨pre, c, out⟩ =
        (.ret (), ⟨[], c, out ++ List.replicate (pre.length + 1) menuEvent ++
          [.println [.text "Option must be an integer"]]⟩) := by
  have hm := main_selection pre l rest c out hc hpre (unhandled_of_error l hl)
  rw [menuBody_error l _ hl] at hm
  have hm2 := (Option.some.inj hm).symm
  refine ⟨hm2, ?_, ?_, by decide, main_end_of_input pre c out hc hpre⟩
  · rw [hm2]
    simp [calls_append, calls_replicate_menu, calls]
  · rw [hm2]
    simp [requests_append, requests_replicate_menu, requests]

/-- The selections "7" then "abc": the menu is printed twice, the message once,
and the line after them stays unread. -/
theorem nonnumeric_selection_exits_witness :
    main ⟨["7"] ++ "abc" :: ["2"], ⟨[], .healthy, none, []⟩, []⟩ =
        (.ret (), ⟨["2"], ⟨[], .healthy, none, []⟩,
          [] ++ List.replicate (["7"].length + 1) menuEvent ++
          [.println [.text "Option must be an integer"]]⟩) ∧
      calls (main ⟨["7"] ++ "abc" :: ["2"], ⟨[], .healthy, none, []⟩, []⟩).2.out = calls [] ∧
      requests (main ⟨["7"] ++ "abc" :: ["2"], ⟨[], .healthy, none, []⟩, []⟩).2.out =
        requests [] ∧
      (ParseInt "").2 ≠ none ∧
      main ⟨["7"], ⟨[], .healthy, none, []⟩, []⟩ =
        (.ret (), ⟨[], ⟨[], .healthy, none, []⟩,
          [] ++ List.replicate (["7"].length + 1) menuEvent ++
          [.println [.text "Option must be an integer"]]⟩) :=
  nonnumeric_selection_exits ["7"] "abc" ["2"] ⟨[], .healthy, none, []⟩ [] rfl
    (by decide) (by decide)

/-! ## Input collection and the operations entered -/

theorem getInputData_two_lines (name line : String) (rest : List String) (c : Client)
    (out : List Event) :
    getInputData ⟨name :: line :: rest, c, out⟩ =
      (.ret ⟨"", name, (ParseFloat line).1⟩,
        ⟨rest, c, out ++ [.println [.text "Insert the name: "],
          .println [.text "Insert the revenue value: "]] ++ revenueReport (ParseFloat line).2⟩) := by
  unfold getInputData
  rcases hp : ParseFloat line with ⟨v, err⟩
  cases err <;> simp [hp, revenueReport]

theorem getInputData_one_line (name : String) (c : Client) (out : List Event) :
    getInputData ⟨[name], c, out⟩ =
      (.ret ⟨"", name, 0⟩,
        ⟨[], c, out ++ [.println [.text "Insert the name: "],
          .println [.text "Insert the revenue value: "]]⟩) := by
  simp [getInputData]

theorem getInputData_no_line (c : Client) (out : List Event) :
    getInputData ⟨[], c, out⟩ =
      (.ret ⟨"", "", 0⟩,
        ⟨[], c, out ++ [.println [.text "Insert the name: "],
          .println [.text "Insert the revenue value: "]]⟩) := by
  simp [getInputData]

theorem calls_revenueReport (e : Option GoError) : calls (revenueReport e) = [] := by
  cases e <;> rfl

theorem requests_revenueReport (e : Option GoError) : requests (revenueReport e) = [] := by
  cases e <;> rfl

theorem getInputData_returns (w : World) :
    ∃ d w1, getInputData w = (.ret d, w1) ∧ w1.client = w.client ∧
      calls w1.out = calls w.out ∧ requests w1.out = requests w.out := by
  rcases w with ⟨stdin, c, out⟩
  match stdin with
  | [] =>
    exact ⟨_, _, getInputData_no_line c out, rfl, by simp [calls_append, calls],
      by simp [requests_append, requests]⟩
  | [name] =>
    exact ⟨_, _, getInputData_one_line name c out, rfl, by simp [calls_append, calls],
      by simp [requests_append, requests]⟩
  | name :: line :: rest =>
    exact ⟨_, _, getInputData_two_lines name line rest c out, rfl,
      by simp [calls_append, calls, calls_revenueReport],
      by simp [requests_append, requests, requests_revenueReport]⟩

theorem createRecord_calls (d : inputData) (w : World) :
    calls (createRecord d w).2.out = calls w.out ++ [.createRecord] := by
  unfold createRecord
  simp only [bind_run, emit_run, InsertOne]
  rcases hr : (w.client.InsertOne [("name", .str d.name), ("revenue", .double d.revenue)]).1
    with ⟨success, err⟩
  cases success <;> cases err <;>
    simp [hr, nilDereference, calls_append, calls]

theorem printDocuments_out (docs : List Doc) (w : World) :
    (printDocuments docs w).1 = .ret () ∧
    calls (printDocuments docs w).2.out = calls w.out ∧
    requests (printDocuments docs w).2.out = requests w.out := by
  induction docs generalizing w with
  | nil => exact ⟨rfl, rfl, rfl⟩
  | cons d t ih =>
    unfold printDocuments
    simp only [bind_run, emit_run]
    obtain ⟨h1, h2, h3⟩ := ih { w with out := w.out ++ [.println [.value (d.get "_id"),
      .value (d.get "name"), .value (d.get "revenue")]] }
    refine ⟨h1, ?_, ?_⟩
    · rw [h2]; simp [calls_append, calls]
    · rw [h3]; simp [requests_append, requests]

theorem getRecordsFromCollection_calls (w : World) :
    calls (getRecordsFromCollection w).2.out = calls w.out ++ [.getRecordsFromCollection] := by
  unfold getRecordsFromCollection
  simp only [bind_run, emit_run, Find]
  rcases hr : w.client.Find [] with ⟨cur, err⟩
  cases cur with
  | none => cases err <;> simp [nilDereference, calls_append, calls]
  | some cur =>
    cases hall : cur.All with
    | error e => cases err <;> simp [hall, logPanic, calls_append, calls]
    | ok docs =>
      cases err <;> simp [hall, (printDocuments_out docs _).2.1, calls_append, calls]

theorem updateRecord_ok (line : String) (rest : List String) (c : Client) (out : List Event)
    (oid : ObjectID) (d : inputData) (w1 : World)
    (hid : ObjectIDFromHex (TrimSpace line) = .ok oid)
    (hin : getInputData ⟨rest, c, out ++ [.call .updateRecord,
      .println [.text "What is the record ID? "]]⟩ = (.ret d, w1)) :
    updateRecord ⟨line :: rest, c, out⟩ =
      (.ret (), ⟨w1.stdin,
        (w1.client.FindOneAndUpdate [("_id", .oid oid)]
          [("name", .str d.name), ("revenue", .double d.revenue)] .after).2,
        w1.out ++ [.request "test_db" "sales" (.findOneAndUpdate [("_id", .oid oid)]
          [("name", .str d.name), ("revenue", .double d.revenue)] .after)] ++
        updateReport (w1.client.FindOneAndUpdate [("_id", .oid oid)]
          [("name", .str d.name), ("revenue", .double d.revenue)] .after).1.Decode⟩) := by
  have hin2 : getInputData ⟨rest, c, out ++ [.call .updateRecord] ++
      [.println [.text "What is the record ID? "]]⟩ = (.ret d, w1) := by
    rw [List.append_assoc]; exact hin
  unfold updateRecord
  simp only [bind_run, emit_run, getRecordID, scan_cons, pure_run, hid, hin2, FindOneAndUpdate]
  cases hdec : (w1.client.FindOneAndUpdate [("_id", .oid oid)]
      [("name", .str d.name), ("revenue", .double d.revenue)] .after).1.Decode <;>
    simp [updateReport]

theorem deleteRecord_ok (line : String) (rest : List String) (c : Client) (out : List Event)
    (oid : ObjectID) (hid : ObjectIDFromHex (TrimSpace line) = .ok oid) :
    deleteRecord ⟨line :: rest, c, out⟩ =
      (.ret (), ⟨rest, (c.DeleteOne [("_id", .oid oid)]).2,
        out ++ [.call .deleteRecord, .println [.text "What is the record ID? "],
          .request "test_db" "sales" (.deleteOne [("_id", .oid oid)])] ++
        deleteReport (c.DeleteOne [("_id", .oid oid)]).1⟩) := by
  unfold deleteRecord
  simp only [bind_run, emit_run, getRecordID, scan_cons, pure_run, hid, DeleteOne]
  rcases hr : (c.DeleteOne [("_id", .oid oid)]).1 with ⟨deleted, err⟩
  cases err <;> simp [deleteReport]

theorem ObjectIDFromHex_empty : ObjectIDFromHex (TrimSpace "") = .error .invalidHex := rfl

theorem calls_updateReport (e : Option GoError) : calls (updateReport e) = [] := by
  cases e <;> rfl

theorem requests_updateReport (e : Option GoError) : requests (updateReport e) = [] := by
  cases e <;> rfl

theorem calls_deleteReport (r : Option DeleteResult × Option GoError) :
    calls (deleteReport r) = [] := by
  rcases r with ⟨d, e⟩
  cases e <;> rfl

theorem requests_deleteReport (r : Option DeleteResult × Option GoError) :
    requests (deleteReport r) = [] := by
  rcases r with ⟨d, e⟩
  cases e <;> rfl

theorem updateRecord_calls (w : World) :
    calls (updateRecord w).2.out = calls w.out ++ [.updateRecord] := by
  rcases w with ⟨stdin, c, out⟩
  cases stdin with
  | nil =>
    simp [updateRecord, getRecordID, logFatal, ObjectIDFromHex_empty, calls_append, calls]
  | cons line rest =>
    cases hid : ObjectIDFromHex (TrimSpace line) with
    | error e =>
      rw [updateRecord_error line rest c out e hid]
      simp [calls_append, calls]
    | ok oid =>
      obtain ⟨d, w1, h1, _, h3, _⟩ := getInputData_returns
        ⟨rest, c, out ++ [.call .updateRecord, .println [.text "What is the record ID? "]]⟩
      rw [updateRecord_ok line rest c out oid d w1 hid h1]
      simp [calls_append, calls, calls_updateReport, h3]

theorem deleteRecord_calls (w : World) :
    calls (deleteRecord w).2.out = calls w.out ++ [.deleteRecord] := by
  rcases w with ⟨stdin, c, out⟩
  cases stdin with
  | nil =>
    simp [deleteRecord, getRecordID, logFatal, ObjectIDFromHex_empty, calls_append, calls]
  | cons line rest =>
    cases hid : ObjectIDFromHex (TrimSpace line) with
    | error e =>
      rw [deleteRecord_error line rest c out e hid]
      simp [calls_append, calls]
    | ok oid =>
      rw [deleteRecord_ok line rest c out oid hid]
      simp [calls_append, calls, calls_deleteReport]

theorem menuBody_of_parse (l : String) (n : Int) (w : World) (hl : ParseInt l = (n, none)) :
    menuBody l w =
      if n = 1 then some ((getInputData >>= createRecord) w)
      else if n = 2 then some (getRecordsFromCollection w)
      else if n = 3 then some (updateRecord w)
      else if n = 4 then some (deleteRecord w)
      else if n = 0 then some (.ret (), w)
      else none := by
  unfold menuBody
  rw [hl]

theorem handled_of_parse (l : String) (n : Int) (hl : ParseInt l = (n, none))
    (hn : n = 1 ∨ n = 2 ∨ n = 3 ∨ n = 4 ∨ n = 0) : unhandled l = false := by
  unfold unhandled
  rw [hl]
  rcases hn with h | h | h | h | h <;> subst h <;> rfl

/-- C5. When a line read by the menu parses to 1, 2, 3 or 4 (after any number
of selections the switch has no case for), the run of `main` is the menu
followed by the run of exactly one record operation: `createRecord` on the
record that `getInputData` returned, `getRecordsFromCollection`,
`updateRecord` or `deleteRecord`, and that operation is the only one entered.
When the line parses to 0, `main` returns after the menu and no operation is
entered. -/
theorem selection_runs_one_operation (pre : List String) (l : String) (rest : List String)
    (c : Client) (out : List Event) (n : Int) (hc : c.connectErr = none)
    (hpre : ∀ x ∈ pre, unhandled x = true) (hl : ParseInt l = (n, none)) :
    (n = 1 →
      (∃ d w1, getInputData ⟨rest, c, out ++ List.replicate (pre.length + 1) menuEvent⟩ =
          (.ret d, w1) ∧ main ⟨pre ++ l :: rest, c, out⟩ = createRecord d w1) ∧
        calls (main ⟨pre ++ l :: rest, c, out⟩).2.out = calls out ++ [.createRecord]) ∧
    (n = 2 →
      main ⟨pre ++ l :: rest, c, out⟩ =
          getRecordsFromCollection ⟨rest, c, out ++ List.replicate (pre.length + 1) menuEvent⟩ ∧
        calls (main ⟨pre ++ l :: rest, c, out⟩).2.out =
          calls out ++ [.getRecordsFromCollection]) ∧
    (n = 3 →
      main ⟨pre ++ l :: rest, c, out⟩ =
          updateRecord ⟨rest, c, out ++ List.replicate (pre.length + 1) menuEvent⟩ ∧
        calls (main ⟨pre ++ l :: rest, c, out⟩).2.out = calls out ++ [.updateRecord]) ∧
    (n = 4 →
      main ⟨pre ++ l :: rest, c, out⟩ =
          deleteRecord ⟨rest, c, out ++ List.replicate (pre.length + 1) menuEvent⟩ ∧
        calls (main ⟨pre ++ l :: rest, c, out⟩).2.out = calls out ++ [.deleteRecord]) ∧
    (n = 0 →
      main ⟨pre ++ l :: rest, c, out⟩ =
          (.ret (), ⟨rest, c, out ++ List.replicate (pre.length + 1) menuEvent⟩) ∧
        calls (main ⟨pre ++ l :: rest, c, out⟩).2.out = calls out) := by
  have key : ∀ hn : n = 1 ∨ n = 2 ∨ n = 3 ∨ n = 4 ∨ n = 0,
      (if n = 1 then some ((getInputData >>= createRecord)
          ⟨rest, c, out ++ List.replicate (pre.length + 1) menuEvent⟩)
        else if n = 2 then some (getRecordsFromCollection
          ⟨rest, c, out ++ List.replicate (pre.length + 1) menuEvent⟩)
        else if n = 3 then some (updateRecord
          ⟨rest, c, out ++ List.replicate (pre.length + 1) menuEvent⟩)
        else if n = 4 then some (deleteRecord
          ⟨rest, c, out ++ List.replicate (pre.length + 1) menuEvent⟩)
        else if n = 0 then some (.ret (),
          ⟨rest, c, out ++ List.replicate (pre.length + 1) menuEvent⟩)
        else none) = some (main ⟨pre ++ l :: rest, c, out⟩) := by
    intro hn
    rw [← menuBody_of_parse l n _ hl]
    exact main_selection pre l rest c out hc hpre (handled_of_parse l n hl hn)
  have hmenu : calls (out ++ List.replicate (pre.length + 1) menuEvent) = calls out := by
    rw [calls_append, calls_replicate_menu, List.append_nil]
  refine ⟨?_, ?_, ?_, ?_, ?_⟩
  · intro hn
    have h := key (Or.inl hn)
    subst hn
    simp only [if_true] at h
    have hm := (Option.some.inj h).symm
    obtain ⟨d, w1, h1, _, h3, _⟩ := getInputData_returns
      ⟨rest, c, out ++ List.replicate (pre.length + 1) menuEvent⟩
    have hrun : main ⟨pre ++ l :: rest, c, out⟩ = createRecord d w1 := by
      rw [hm, bind_run, h1]
    refine ⟨⟨d, w1, h1, hrun⟩, ?_⟩
    rw [hrun, createRecord_calls, h3, hmenu]
  · intro hn
    have h := key (Or.inr (Or.inl hn))
    subst hn
    simp only [if_true, show ¬ ((2 : Int) = 1) by decide, if_false] at h
    have hm := (Option.some.inj h).symm
    refine ⟨hm, ?_⟩
    rw [hm, getRecordsFromCollection_calls, hmenu]
  · intro hn
    have h := key (Or.inr (Or.inr (Or.inl hn)))
    subst hn
    simp only [if_true, show ¬ ((3 : Int) = 1) by decide, show ¬ ((3 : Int) = 2) by decide,
      if_false] at h
    have hm := (Option.some.inj h).symm
    refine ⟨hm, ?_⟩
    rw [hm, updateRecord_calls, hmenu]
  · intro hn
    have h := key (Or.inr (Or.inr (Or.inr (Or.inl hn))))
    subst hn
    simp only [if_true, show ¬ ((4 : Int) = 1) by decide, show ¬ ((4 : Int) = 2) by decide,
      show ¬ ((4 : Int) = 3) by decide, if_false] at h
    have hm := (Option.some.inj h).symm
    refine ⟨hm, ?_⟩
    rw [hm, deleteRecord_calls, hmenu]
  · intro hn
    have h := key (Or.inr (Or.inr (Or.inr (Or.inr hn))))
    subst hn
    simp only [if_true, show ¬ ((0 : Int) = 1) by decide, show ¬ ((0 : Int) = 2) by decide,
      show ¬ ((0 : Int) = 3) by decide, show ¬ ((0 : Int) = 4) by decide, if_false] at h
    have hm := (Option.some.inj h).symm
    refine ⟨hm, ?_⟩
    rw [hm]
    exact hmenu

/-- The selections "7" then "3": the run of `main` is two menus followed by
`updateRecord`. -/
theorem selection_runs_one_operation_witness :
    main ⟨["7"] ++ "3" :: ["xyz"], ⟨[], .healthy, none, []⟩, []⟩ =
        updateRecord ⟨["xyz"], ⟨[], .healthy, none, []⟩,
          [] ++ List.replicate (["7"].length + 1) menuEvent⟩ ∧
      calls (main ⟨["7"] ++ "3" :: ["xyz"], ⟨[], .healthy, none, []⟩, []⟩).2.out =
        calls [] ++ [.updateRecord] :=
  (selection_runs_one_operation ["7"] "3" ["xyz"] ⟨[], .healthy, none, []⟩ [] 3 rfl
    (by decide) (by decide)).2.2.1 rfl

/-! ## Iterations of the menu loop -/

theorem menus_cons (e : Event) (rest : List Event) :
    menus (e :: rest) = if e = menuEvent then menus rest + 1 else menus rest := rfl

@[simp]
theorem menus_nil : menus [] = 0 := rfl

theorem menus_append (a b : List Event) : menus (a ++ b) = menus a + menus b := by
  induction a with
  | nil => simp [menus]
  | cons e t ih =>
    rw [List.cons_append, menus_cons, menus_cons, ih]
    split_ifs <;> omega

@[simp]
theorem menus_cons_println (t : String) (rest : List Event) (h : t ≠ menuText) :
    menus (.println [.text t] :: rest) = menus rest := by
  simp [menus, menuEvent, h]

@[simp]
theorem name_prompt_ne_menu : "Insert the name: " ≠ menuText := by decide

@[simp]
theorem revenue_prompt_ne_menu : "Insert the revenue value: " ≠ menuText := by decide

@[simp]
theorem insert_failure_ne_menu : "Could not insert record!" ≠ menuText := by decide

@[simp]
theorem read_failure_ne_menu : "Could not read" ≠ menuText := by decide

@[simp]
theorem id_prompt_ne_menu : "What is the record ID? " ≠ menuText := by decide

@[simp]
theorem not_integer_ne_menu : "Option must be an integer" ≠ menuText := by decide

theorem menus_replicate_menu (n : Nat) : menus (List.replicate n menuEvent) = n := by
  induction n with
  | zero => rfl
  | succ n ih => simp [List.replicate_succ, menus, ih]

theorem menus_single (e : Event) (h : e ≠ menuEvent) : menus [e] = 0 := by
  simp [menus, h]

theorem menus_revenueReport (e : Option GoError) : menus (revenueReport e) = 0 := by
  cases e
  · rfl
  · exact menus_single _ (by simp [menuEvent])

theorem menus_updateReport (e : Option GoError) : menus (updateReport e) = 0 := by
  cases e
  · rfl
  · exact menus_single _ (by simp [menuEvent])

theorem menus_deleteReport (r : Option DeleteResult × Option GoError) :
    menus (deleteReport r) = 0 := by
  rcases r with ⟨d, e⟩
  cases e
  · exact menus_single _ (by simp [menuEvent])
  · exact menus_single _ (by simp [menuEvent])

theorem menus_prompts (rest : List Event) :
    menus (.println [.text "Insert the name: "] ::
      .println [.text "Insert the revenue value: "] :: rest) = menus rest := by
  simp

theorem getInputData_menus (w : World) :
    ∃ d w1, getInputData w = (.ret d, w1) ∧ menus w1.out = menus w.out := by
  rcases w with ⟨stdin, c, out⟩
  match stdin with
  | [] => exact ⟨_, _, getInputData_no_line c out, by simp [menus_append]⟩
  | [name] => exact ⟨_, _, getInputData_one_line name c out, by simp [menus_append]⟩
  | name :: line :: rest =>
    exact ⟨_, _, getInputData_two_lines name line rest c out,
      by simp [menus_append, menus_revenueReport]⟩

theorem createRecord_menus (d : inputData) (w : World) :
    menus (createRecord d w).2.out = menus w.out := by
  unfold createRecord
  simp only [bind_run, emit_run, InsertOne]
  rcases hr : (w.client.InsertOne [("name", .str d.name), ("revenue", .double d.revenue)]).1
    with ⟨success, err⟩
  cases success <;> cases err <;>
    simp [hr, nilDereference, menus_append, menus, menuEvent]

theorem printDocuments_menus (docs : List Doc) (w : World) :
    menus (printDocuments docs w).2.out = menus w.out := by
  induction docs generalizing w with
  | nil => rfl
  | cons d t ih =>
    unfold printDocuments
    simp only [bind_run, emit_run]
    rw [ih]
    simp [menus_append, menus, menuEvent]

theorem getRecordsFromCollection_menus (w : World) :
    menus (getRecordsFromCollection w).2.out = menus w.out := by
  unfold getRecordsFromCollection
  simp only [bind_run, emit_run, Find]
  rcases hr : w.client.Find [] with ⟨cur, err⟩
  cases cur with
  | none => cases err <;> simp [nilDereference, menus_append, menus, menuEvent]
  | some cur =>
    cases hall : cur.All with
    | error e => cases err <;> simp [hall, logPanic, menus_append, menus, menuEvent]
    | ok docs =>
      cases err <;> simp [hall, printDocuments_menus, menus_append, menus, menuEvent]

theorem updateRecord_menus (w : World) : menus (updateRecord w).2.out = menus w.out := by
  rcases w with ⟨stdin, c, out⟩
  cases stdin with
  | nil =>
    simp [updateRecord, getRecordID, logFatal, ObjectIDFromHex_empty, menus_append, menus,
      menuEvent]
  | cons line rest =>
    cases hid : ObjectIDFromHex (TrimSpace line) with
    | error e =>
      rw [updateRecord_error line rest c out e hid]
      simp [menus_append, menus, menuEvent]
    | ok oid =>
      obtain ⟨d, w1, h1, h2⟩ := getInputData_menus
        ⟨rest, c, out ++ [.call .updateRecord, .println [.text "What is the record ID? "]]⟩
      rw [updateRecord_ok line rest c out oid d w1 hid h1]
      simp [menus_append, menus_updateReport, h2, menus, menuEvent]

theorem deleteRecord_menus (w : World) : menus (deleteRecord w).2.out = menus w.out := by
  rcases w with ⟨stdin, c, out⟩
  cases stdin with
  | nil =>
    simp [deleteRecord, getRecordID, logFatal, ObjectIDFromHex_empty, menus_append, menus,
      menuEvent]
  | cons line rest =>
    cases hid : ObjectIDFromHex (TrimSpace line) with
    | error e =>
      rw [deleteRecord_error line rest c out e hid]
      simp [menus_append, menus, menuEvent]
    | ok oid =>
      rw [deleteRecord_ok line rest c out oid hid]
      simp [menus_append, menus_deleteReport, menus, menuEvent]

theorem menuBody_menus (l : String) (w : World) (r : Step Unit × World)
    (h : menuBody l w = some r) : menus r.2.out = menus w.out := by
  unfold menuBody at h
  split at h
  · have := (Option.some.inj h).symm
    subst this
    simp [menus_append, menus, menuEvent]
  · split_ifs at h
    · have := (Option.some.inj h).symm
      subst this
      obtain ⟨d, w1, h1, h2⟩ := getInputData_menus w
      rw [bind_run, h1]
      simp only
      rw [createRecord_menus, h2]
    · have := (Option.some.inj h).symm
      subst this
      exact getRecordsFromCollection_menus w
    · have := (Option.some.inj h).symm
      subst this
      exact updateRecord_menus w
    · have := (Option.some.inj h).symm
      subst this
      exact deleteRecord_menus w
    · have := (Option.some.inj h).symm
      subst this
      rfl

/-- C6, counterexample. On the input lines "5" and "0" the loop of `main`
iterates twice: both lines are read as selections and the menu is printed
twice. -/
theorem menu_loop_iterates_twice :
    (main ⟨["5", "0"], ⟨[], .healthy, none, []⟩, []⟩).2.out = [menuEvent, menuEvent] ∧
      (main ⟨["5", "0"], ⟨[], .healthy, none, []⟩, []⟩).2.stdin = [] ∧
      menus (main ⟨["5", "0"], ⟨[], .healthy, none, []⟩, []⟩).2.out = 2 := by
  decide

/-- C6, amended. The loop of `main` iterates once per selection read: it
repeats after every selection that parses as an integer other than 0 to 4, and
the first selection that is anything else is handled by the body of the loop,
on the lines after it, and ends the run. So after `k` leading selections of
the first kind the menu has been printed `k + 1` times, also when the input
ends there; with `k = 0` the loop iterates exactly once. -/
theorem menu_loop_iterations (pre : List String) (l : String) (rest : List String)
    (c : Client) (out : List Event) (hc : c.connectErr = none)
    (hpre : ∀ x ∈ pre, unhandled x = true) (hl : unhandled l = false) :
    menuBody l ⟨rest, c, out ++ List.replicate (pre.length + 1) menuEvent⟩ =
        some (main ⟨pre ++ l :: rest, c, out⟩) ∧
      menus (main ⟨pre ++ l :: rest, c, out⟩).2.out = menus out + (pre.length + 1) ∧
      menus (main ⟨pre, c, out⟩).2.out = menus out + (pre.length + 1) := by
  have hm := main_selection pre l rest c out hc hpre hl
  refine ⟨hm, ?_, ?_⟩
  · rw [menuBody_menus l _ _ hm, menus_append, menus_replicate_menu]
  · rw [main_end_of_input pre c out hc hpre]
    simp [menus_append, menus_replicate_menu]

/-- The selections "5", "-7" and "0": three menus. -/
theorem menu_loop_iterations_witness :
    menuBody "0" ⟨["1"], ⟨[], .healthy, none, []⟩,
        [] ++ List.replicate (["5", "-7"].length + 1) menuEvent⟩ =
        some (main ⟨["5", "-7"] ++ "0" :: ["1"], ⟨[], .healthy, none, []⟩, []⟩) ∧
      menus (main ⟨["5", "-7"] ++ "0" :: ["1"], ⟨[], .healthy, none, []⟩, []⟩).2.out =
        menus [] + (["5", "-7"].length + 1) ∧
      menus (main ⟨["5", "-7"], ⟨[], .healthy, none, []⟩, []⟩).2.out =
        menus [] + (["5", "-7"].length + 1) :=
  menu_loop_iterations ["5", "-7"] "0" ["1"] ⟨[], .healthy, none, []⟩ [] rfl
    (by decide) (by decide)

/-! ## Revenue that does not parse -/

theorem withSign_infBits (neg : Bool) :
    withSign neg infBits = infBits ∨ withSign neg infBits = infBits + 2 ^ 31 := by
  cases neg
  · exact Or.inl rfl
  · exact Or.inr rfl

theorem ParseFloat_pair_error (s : String) (v : Float32) (e : GoError)
    (h : ParseFloat s = (v, some e)) :
    (e = .errSyn ∧ v = 0) ∨ (e = .errRange ∧ (v = infBits ∨ v = infBits + 2 ^ 31)) := by
  unfold ParseFloat at h
  split at h
  · split_ifs at h with h1
    · simp at h
    · simp only [Prod.mk.injEq, Option.some.injEq] at h
      exact Or.inl ⟨h.2.symm, h.1.symm⟩
  · split at h
    · simp only [Prod.mk.injEq, Option.some.injEq] at h
      exact Or.inl ⟨h.2.symm, h.1.symm⟩
    · rename_i p hp
      simp only at h
      split_ifs at h with h1 h2 h3 h4 h5 h6
      all_goals first
        | (simp at h; done)
        | (simp only [Prod.mk.injEq, Option.some.injEq] at h
           rw [← h.1]
           exact Or.inr ⟨h.2.symm, withSign_infBits p.neg⟩)

theorem ParseFloat_error_value (s : String) (e : GoError) (h : (ParseFloat s).2 = some e) :
    (e = .errSyn ∧ (ParseFloat s).1 = 0) ∨
      (e = .errRange ∧
        ((ParseFloat s).1 = infBits ∨ (ParseFloat s).1 = infBits + 2 ^ 31)) := by
  apply ParseFloat_pair_error s
  rw [← h]

/-- C2, counterexample. The revenue line "1e39" makes `ParseFloat` return an
error (out of range), and the record `getInputData` returns has revenue plus
infinity, not zero. -/
theorem revenue_infinite_on_range_error :
    (ParseFloat "1e39").2 = some .errRange ∧
      (getInputData ⟨["Widget", "1e39"], ⟨[], .healthy, none, []⟩, []⟩).1 =
        .ret ⟨"", "Widget", 0x7F800000⟩ ∧
      (0x7F800000 : Float32) ≠ 0 := by
  set_option maxRecDepth 4000 in decide

/-- C2, amended. When `ParseFloat` returns an error on the revenue line,
`getInputData` prints the error and returns the record with the name line
unchanged and, as revenue, the value `ParseFloat` returned with the error:
zero for a syntax error, plus or minus infinity for a range error. The
operation is not rejected: on selection 1, `main` passes this record to
`createRecord`. -/
theorem revenue_parse_failure (name line : String) (rest : List String) (c : Client)
    (out : List Event) (e : GoError) (h : (ParseFloat line).2 = some e) :
    getInputData ⟨name :: line :: rest, c, out⟩ =
        (.ret ⟨"", name, (ParseFloat line).1⟩,
          ⟨rest, c, out ++ [.println [.text "Insert the name: "],
            .println [.text "Insert the revenue value: "],
            .println [.text "Error parsing revenue: ", .error e]]⟩) ∧
      ((e = .errSyn ∧ (ParseFloat line).1 = 0) ∨
        (e = .errRange ∧
          ((ParseFloat line).1 = infBits ∨ (ParseFloat line).1 = infBits + 2 ^ 31))) ∧
      (c.connectErr = none →
        main ⟨"1" :: name :: line :: rest, c, out⟩ =
          createRecord ⟨"", name, (ParseFloat line).1⟩
            ⟨rest, c, out ++ [menuEvent, .println [.text "Insert the name: "],
              .println [.text "Insert the revenue value: "],
              .println [.text "Error parsing revenue: ", .error e]]⟩) := by
  have hg : ∀ o : List Event, getInputData ⟨name :: line :: rest, c, o⟩ =
      (.ret ⟨"", name, (ParseFloat line).1⟩,
        ⟨rest, c, o ++ [.println [.text "Insert the name: "],
          .println [.text "Insert the revenue value: "],
          .println [.text "Error parsing revenue: ", .error e]]⟩) := by
    intro o
    rw [getInputData_two_lines, h]
    simp [revenueReport]
  refine ⟨hg out, ParseFloat_error_value line e h, ?_⟩
  intro hc
  have hm := main_selection [] "1" (name :: line :: rest) c out hc (by simp) (by decide)
  rw [menuBody_of_parse "1" 1 _ (by decide)] at hm
  simp only [if_true] at hm
  have hm2 := (Option.some.inj hm).symm
  rw [List.nil_append] at hm2
  rw [hm2, bind_run]
  have := hg (out ++ List.replicate (([] : List String).length + 1) menuEvent)
  rw [this]
  simp

/-- The revenue line "abc": a syntax error and a revenue of zero. -/
theorem revenue_parse_failure_witness :
    getInputData ⟨"Widget" :: "abc" :: [], ⟨[], .healthy, none, []⟩, []⟩ =
        (.ret ⟨"", "Widget", (ParseFloat "abc").1⟩,
          ⟨[], ⟨[], .healthy, none, []⟩, [] ++ [.println [.text "Insert the name: "],
            .println [.text "Insert the revenue value: "],
            .println [.text "Error parsing revenue: ", .error .errSyn]]⟩) ∧
      ((GoError.errSyn = .errSyn ∧ (ParseFloat "abc").1 = 0) ∨
        (GoError.errSyn = .errRange ∧
          ((ParseFloat "abc").1 = infBits ∨ (ParseFloat "abc").1 = infBits + 2 ^ 31))) ∧
      ((⟨[], .healthy, none, []⟩ : Client).connectErr = none →
        main ⟨"1" :: "Widget" :: "abc" :: [], ⟨[], .healthy, none, []⟩, []⟩ =
          createRecord ⟨"", "Widget", (ParseFloat "abc").1⟩
            ⟨[], ⟨[], .healthy, none, []⟩, [] ++ [menuEvent,
              .println [.text "Insert the name: "],
              .println [.text "Insert the revenue value: "],
              .println [.text "Error parsing revenue: ", .error .errSyn]]⟩) :=
  revenue_parse_failure "Widget" "abc" [] ⟨[], .healthy, none, []⟩ [] .errSyn (by decide)

/-! ## Failed requests -/

/-- C1, the code at the failing input. When the insert request does not reach
the server, `InsertOne` returns a nil result with the error; `createRecord`
prints "Could not insert record!" and goes on to read `success.InsertedID`,
which panics: the run does not return. -/
theorem createRecord_panics_on_insert_error (data : inputData) (w : World)
    (h : w.client.fault = .network) :
    createRecord data w =
      (.panicked, ⟨w.stdin, w.client, w.out ++ [.call .createRecord,
        .request "test_db" "sales"
          (.insertOne [("name", .str data.name), ("revenue", .double data.revenue)]),
        .println [.text "Could not insert record!"]]⟩) := by
  rcases w with ⟨stdin, c, out⟩
  simp only at h
  simp [createRecord, InsertOne, Client.InsertOne, h, nilDereference]

/-- The record Widget, 12.5 on a store that cannot be reached. -/
theorem createRecord_panics_on_insert_error_witness :
    createRecord ⟨"", "Widget", 0x41480000⟩ ⟨[], ⟨[], .network, none, []⟩, []⟩ =
      (.panicked, ⟨[], ⟨[], .network, none, []⟩, [] ++ [.call .createRecord,
        .request "test_db" "sales"
          (.insertOne [("name", .str "Widget"), ("revenue", .double 0x41480000)]),
        .println [.text "Could not insert record!"]]⟩) :=
  createRecord_panics_on_insert_error ⟨"", "Widget", 0x41480000⟩
    ⟨[], ⟨[], .network, none, []⟩, []⟩ rfl

/-- C10, the code at the failing input. When the find request does not reach
the server, `Find` returns a nil cursor with the error;
`getRecordsFromCollection` prints "Could not read" and goes on to call `All`
on the nil cursor, which panics. -/
theorem getRecordsFromCollection_panics_on_find_error (w : World)
    (h : w.client.fault = .network) :
    getRecordsFromCollection w =
      (.panicked, ⟨w.stdin, w.client, w.out ++ [.call .getRecordsFromCollection,
        .request "test_db" "sales" (.find []),
        .println [.text "Could not read"]]⟩) := by
  rcases w with ⟨stdin, c, out⟩
  simp only at h
  simp [getRecordsFromCollection, Find, Client.Find, h, nilDereference]

/-- A read-all on a store that cannot be reached. -/
theorem getRecordsFromCollection_panics_on_find_error_witness :
    getRecordsFromCollection ⟨[], ⟨[], .network, none, []⟩, []⟩ =
      (.panicked, ⟨[], ⟨[], .network, none, []⟩, [] ++ [.call .getRecordsFromCollection,
        .request "test_db" "sales" (.find []),
        .println [.text "Could not read"]]⟩) :=
  getRecordsFromCollection_panics_on_find_error ⟨[], ⟨[], .network, none, []⟩, []⟩ rfl

/-! ## Update and delete on the store -/

theorem docMatches_id (v : BVal) (d : Doc) :
    docMatches [("_id", v)] d = true ↔ d.get "_id" = some v := by
  simp [docMatches]

theorem docMatches_empty (d : Doc) : docMatches [] d = true := rfl

theorem get_setField (d : Doc) (k : String) (v : BVal) (k2 : String) :
    Doc.get (setField d k v) k2 = if k2 = k then some v else d.get k2 := by
  induction d with
  | nil =>
    by_cases h : k = k2
    · simp [setField, Doc.get, h]
    · have h2 : ¬ k2 = k := fun e => h e.symm
      simp [setField, Doc.get, h, h2]
  | cons kv t ih =>
    rcases kv with ⟨k1, v1⟩
    by_cases h1 : k1 = k
    · subst h1
      by_cases h2 : k1 = k2
      · subst h2
        simp [setField, Doc.get]
      · have h3 : ¬ k2 = k1 := fun e => h2 e.symm
        simp [setField, Doc.get, h2, h3]
    · by_cases h2 : k1 = k2
      · subst h2
        simp [setField, Doc.get, h1]
      · simp [setField, Doc.get, h1, h2, ih]

theorem get_applySet (d : Doc) (name revenue : BVal) (k : String) :
    Doc.get (applySet d [("name", name), ("revenue", revenue)]) k =
      if k = "revenue" then some revenue else if k = "name" then some name else d.get k := by
  simp [applySet, get_setField]

theorem updateFirst_none (filter set : Doc) (docs : List Doc)
    (h : ∀ d ∈ docs, docMatches filter d = false) : updateFirst filter set docs = none := by
  induction docs with
  | nil => rfl
  | cons d t ih =>
    have hd := h d (List.mem_cons_self d t)
    simp [updateFirst, hd, ih (fun x hx => h x (List.mem_cons_of_mem d hx))]

theorem map_update_id (filter set : Doc) (docs : List Doc)
    (h : ∀ d ∈ docs, docMatches filter d = false) :
    docs.map (fun d => if docMatches filter d = true then applySet d set else d) = docs := by
  induction docs with
  | nil => rfl
  | cons d t ih =>
    have hd := h d (List.mem_cons_self d t)
    simp [hd, ih (fun x hx => h x (List.mem_cons_of_mem d hx))]

theorem uniqueIds_tail (d : Doc) (t : List Doc) (h : uniqueIds (d :: t)) : uniqueIds t := by
  unfold uniqueIds at h ⊢
  rw [List.map_cons] at h
  exact (List.nodup_cons.mp h).2

theorem uniqueIds_head (d : Doc) (t : List Doc) (v : BVal) (h : uniqueIds (d :: t))
    (hd : docMatches [("_id", v)] d = true) : ∀ x ∈ t, docMatches [("_id", v)] x = false := by
  intro x hx
  unfold uniqueIds at h
  rw [List.map_cons] at h
  have hn := (List.nodup_cons.mp h).1
  cases hm : docMatches [("_id", v)] x with
  | false => rfl
  | true =>
    exfalso
    apply hn
    rw [(docMatches_id v d).mp hd, ← (docMatches_id v x).mp hm]
    exact List.mem_map_of_mem _ hx

theorem updateFirst_unique (v : BVal) (set : Doc) (docs : List Doc) (h : uniqueIds docs)
    (hex : ∃ d ∈ docs, docMatches [("_id", v)] d = true) :
    ∃ pre, pre ∈ docs ∧ docMatches [("_id", v)] pre = true ∧
      updateFirst [("_id", v)] set docs =
        some (pre, applySet pre set,
          docs.map fun d => if docMatches [("_id", v)] d = true then applySet d set else d) := by
  induction docs with
  | nil =>
    obtain ⟨d, hd, _⟩ := hex
    simp at hd
  | cons d t ih =>
    cases hm : docMatches [("_id", v)] d with
    | true =>
      refine ⟨d, List.mem_cons_self d t, hm, ?_⟩
      have hrest := map_update_id [("_id", v)] set t (uniqueIds_head d t v h hm)
      simp only [updateFirst, hm, if_true, List.map_cons, hrest]
    | false =>
      have hex2 : ∃ x ∈ t, docMatches [("_id", v)] x = true := by
        obtain ⟨x, hx, hxm⟩ := hex
        rcases List.mem_cons.mp hx with rfl | hx
        · rw [hm] at hxm
          simp at hxm
        · exact ⟨x, hx, hxm⟩
      obtain ⟨pre, hp1, hp2, hp3⟩ := ih (uniqueIds_tail d t h) hex2
      refine ⟨pre, List.mem_cons_of_mem d hp1, hp2, ?_⟩
      simp [updateFirst, hm, hp3]

theorem deleteFirst_none (filter : Doc) (docs : List Doc)
    (h : ∀ d ∈ docs, docMatches filter d = false) : deleteFirst filter docs = (0, docs) := by
  induction docs with
  | nil => rfl
  | cons d t ih =>
    have hd := h d (List.mem_cons_self d t)
    simp [deleteFirst, hd, ih (fun x hx => h x (List.mem_cons_of_mem d hx))]

theorem filter_not_id (filter : Doc) (docs : List Doc)
    (h : ∀ d ∈ docs, docMatches filter d = false) :
    docs.filter (fun d => !docMatches filter d) = docs := by
  apply List.filter_eq_self.mpr
  intro d hd
  simp [h d hd]

theorem deleteFirst_unique (v : BVal) (docs : List Doc) (h : uniqueIds docs)
    (hex : ∃ d ∈ docs, docMatches [("_id", v)] d = true) :
    deleteFirst [("_id", v)] docs =
      (1, docs.filter fun d => !docMatches [("_id", v)] d) := by
  induction docs with
  | nil =>
    obtain ⟨d, hd, _⟩ := hex
    simp at hd
  | cons d t ih =>
    cases hm : docMatches [("_id", v)] d with
    | true =>
      have hrest := filter_not_id [("_id", v)] t (uniqueIds_head d t v h hm)
      simp [deleteFirst, hm, hrest]
    | false =>
      have hex2 : ∃ x ∈ t, docMatches [("_id", v)] x = true := by
        obtain ⟨x, hx, hxm⟩ := hex
        rcases List.mem_cons.mp hx with rfl | hx
        · rw [hm] at hxm
          simp at hxm
        · exact ⟨x, hx, hxm⟩
      have := ih (uniqueIds_tail d t h) hex2
      simp [deleteFirst, hm, this]

theorem map_update_congr (oid : ObjectID) (set : Doc) (docs : List Doc) :
    (docs.map fun d => if docMatches [("_id", .oid oid)] d = true then applySet d set else d) =
      docs.map fun d => if d.get "_id" = some (.oid oid) then applySet d set else d := by
  apply List.map_congr_left
  intro d _
  by_cases h : d.get "_id" = some (.oid oid)
  · simp [h, (docMatches_id (.oid oid) d).mpr h]
  · have : ¬ docMatches [("_id", .oid oid)] d = true := fun hm =>
      h ((docMatches_id (.oid oid) d).mp hm)
    simp [h, this]

/-- C8. For a valid identifier, `updateRecord` collects the fields and sends
exactly one request: a find-and-update-one on `test_db.sales` whose filter is
`_id` equal to that identifier (it matches the documents with that `_id` and no
other), whose `$set` holds exactly `name` and `revenue` with the collected
values, and which asks for the document after the update; it then returns.
Setting these fields leaves every other field of a document, `_id` included,
as it was. On a healthy store with unique identifiers that holds a document
with the identifier, a read-all afterwards returns the collection with that
document updated and every other document unchanged, and nothing is reported.
On a healthy store with no such document, the store is unchanged, the failure
is logged and `updateRecord` returns. -/
theorem updateRecord_updates_by_id (idline : String) (rest : List String) (c : Client)
    (out : List Event) (oid : ObjectID) (hid : ObjectIDFromHex (TrimSpace idline) = .ok oid) :
    ∃ d w1,
      getInputData ⟨rest, c, out ++ [.call .updateRecord,
        .println [.text "What is the record ID? "]]⟩ = (.ret d, w1) ∧
      (updateRecord ⟨idline :: rest, c, out⟩).1 = .ret () ∧
      requests (updateRecord ⟨idline :: rest, c, out⟩).2.out =
        requests out ++ [("test_db", "sales", updateRequest oid d)] ∧
      (∀ doc : Doc, docMatches (idFilter oid) doc = true ↔ doc.get "_id" = some (.oid oid)) ∧
      (∀ (doc : Doc) (k : String), (applySet doc (setFields d)).get k =
        if k = "revenue" then some (.double d.revenue)
        else if k = "name" then some (.str d.name) else doc.get k) ∧
      (c.fault = .healthy → uniqueIds c.docs →
        (∃ doc ∈ c.docs, doc.get "_id" = some (.oid oid)) →
          (updateRecord ⟨idline :: rest, c, out⟩).2.out =
            w1.out ++ [.request "test_db" "sales" (updateRequest oid d)] ∧
          (updateRecord ⟨idline :: rest, c, out⟩).2.client.Find [] =
            (some ⟨c.docs.map fun doc =>
              if doc.get "_id" = some (.oid oid) then applySet doc (setFields d) else doc,
              false⟩, none)) ∧
      (c.fault = .healthy → (∀ doc ∈ c.docs, doc.get "_id" ≠ some (.oid oid)) →
        updateRecord ⟨idline :: rest, c, out⟩ =
          (.ret (), ⟨w1.stdin, c, w1.out ++ [.request "test_db" "sales" (updateRequest oid d),
            .logPrintln [.text "Failed to update record: ", .error .noDocuments]]⟩)) := by
  obtain ⟨d, w1, h1, hcl, _, hreq⟩ := getInputData_returns
    ⟨rest, c, out ++ [.call .updateRecord, .println [.text "What is the record ID? "]]⟩
  have hrun := updateRecord_ok idline rest c out oid d w1 hid h1
  simp only at hcl
  refine ⟨d, w1, h1, ?_, ?_, docMatches_id (.oid oid),
    fun doc k => get_applySet doc _ _ k, ?_, ?_⟩
  · rw [hrun]
  · rw [hrun]
    simp only [requests_append, requests_updateReport, hreq, List.append_nil]
    simp [requests, updateRequest, idFilter, setFields]
  · intro hf hu hex
    have hex2 : ∃ x ∈ c.docs, docMatches [("_id", .oid oid)] x = true := by
      obtain ⟨x, hx, hxm⟩ := hex
      exact ⟨x, hx, (docMatches_id (.oid oid) x).mpr hxm⟩
    obtain ⟨pre, _, _, hup⟩ := updateFirst_unique (.oid oid) (setFields d) c.docs hu hex2
    have hfu : w1.client.FindOneAndUpdate [("_id", .oid oid)]
        [("name", .str d.name), ("revenue", .double d.revenue)] .after =
        (⟨none, some (applySet pre (setFields d))⟩,
          { c with docs := c.docs.map fun doc =>
              if doc.get "_id" = some (.oid oid) then applySet doc (setFields d) else doc }) := by
      rw [hcl]
      unfold Client.FindOneAndUpdate
      rw [hf]
      simp only
      rw [show ([("name", BVal.str d.name), ("revenue", BVal.double d.revenue)] : Doc) =
        setFields d from rfl, hup, map_update_congr]
      simp
    rw [hrun, hfu]
    refine ⟨?_, ?_⟩
    · simp [SingleResult.Decode, updateReport, updateRequest, idFilter, setFields]
    · simp [Client.Find, hf, docMatches_empty]
  · intro hf hno
    have hno2 : ∀ x ∈ c.docs, docMatches [("_id", .oid oid)] x = false := by
      intro x hx
      cases hm : docMatches [("_id", .oid oid)] x with
      | false => rfl
      | true => exact absurd ((docMatches_id (.oid oid) x).mp hm) (hno x hx)
    have hfu : w1.client.FindOneAndUpdate [("_id", .oid oid)]
        [("name", .str d.name), ("revenue", .double d.revenue)] .after =
        (⟨none, none⟩, c) := by
      rw [hcl]
      unfold Client.FindOneAndUpdate
      rw [hf]
      simp only
      rw [updateFirst_none _ _ _ hno2]
    rw [hrun, hfu]
    simp [SingleResult.Decode, updateReport, updateRequest, idFilter, setFields]

/-- Updating the second document of the sample store to Gadget, 9.0: a read-all
afterwards returns the first document unchanged and the second with the new
fields under the same identifier. -/
theorem updateRecord_updates_by_id_witness :
    (updateRecord ⟨["671aa05bf8333e0581fe6911", "Gadget", "9.0"], sampleStore, []⟩).2.client.Find []
        = (some ⟨[[("_id", .oid [1, 2, 3, 4, 5, 6, 7, 8, 9, 10, 11, 12]), ("name", .str "Thing"),
              ("revenue", .double 0)],
            [("_id", .oid sampleId), ("name", .str "Gadget"), ("revenue", .double 0x41100000)]],
          false⟩, none) ∧
      requests (updateRecord
        ⟨["671aa05bf8333e0581fe6911", "Gadget", "9.0"], sampleStore, []⟩).2.out =
        [("test_db", "sales", updateRequest sampleId ⟨"", "Gadget", 0x41100000⟩)] := by
  obtain ⟨d, w1, h1, _, h3, _, _, h6, _⟩ := updateRecord_updates_by_id
    "671aa05bf8333e0581fe6911" ["Gadget", "9.0"] sampleStore [] sampleId rfl
  have hd : getInputData ⟨["Gadget", "9.0"], sampleStore, [] ++ [.call .updateRecord,
      .println [.text "What is the record ID? "]]⟩ =
      (.ret ⟨"", "Gadget", 0x41100000⟩, ⟨[], sampleStore, [.call .updateRecord,
        .println [.text "What is the record ID? "], .println [.text "Insert the name: "],
        .println [.text "Insert the revenue value: "]]⟩) := by decide
  rw [hd] at h1
  have hdd : d = ⟨"", "Gadget", 0x41100000⟩ := by
    injection h1 with ha _
    injection ha with ha
    exact ha.symm
  subst hdd
  exact ⟨(h6 rfl (by decide) ⟨_, List.mem_cons_of_mem _ (List.mem_cons_self _ _), rfl⟩).2, h3⟩

/-- C9. For a valid identifier, `deleteRecord` sends exactly one request, a
delete-one on `test_db.sales` filtered on `_id` equal to that identifier, and
returns. On a healthy store with unique identifiers that holds a document with
the identifier, the store afterwards is the collection without that document
(every other document is kept, in order), a read-all returns it, and the
success line reports one document removed. On a healthy store with no such
document the store is unchanged and the success line, not the error line,
reports zero removed. -/
theorem deleteRecord_deletes_by_id (idline : String) (rest : List String) (c : Client)
    (out : List Event) (oid : ObjectID) (hid : ObjectIDFromHex (TrimSpace idline) = .ok oid) :
    (deleteRecord ⟨idline :: rest, c, out⟩).1 = .ret () ∧
      requests (deleteRecord ⟨idline :: rest, c, out⟩).2.out =
        requests out ++ [("test_db", "sales", .deleteOne (idFilter oid))] ∧
      (c.fault = .healthy → uniqueIds c.docs →
        (∃ doc ∈ c.docs, doc.get "_id" = some (.oid oid)) →
          deleteRecord ⟨idline :: rest, c, out⟩ =
            (.ret (), ⟨rest,
              { c with docs := withoutId oid c.docs },
              out ++ [.call .deleteRecord, .println [.text "What is the record ID? "],
                .request "test_db" "sales" (.deleteOne (idFilter oid)),
                .println [.text "Successfully deleted: ", .deleted (some ⟨1⟩)]]⟩) ∧
          (deleteRecord ⟨idline :: rest, c, out⟩).2.client.Find [] =
            (some ⟨withoutId oid c.docs, false⟩, none)) ∧
      (∀ doc, doc ∈ withoutId oid c.docs ↔ doc ∈ c.docs ∧ doc.get "_id" ≠ some (.oid oid)) ∧
      (withoutId oid c.docs).Sublist c.docs ∧
      (c.fault = .healthy → (∀ doc ∈ c.docs, doc.get "_id" ≠ some (.oid oid)) →
        deleteRecord ⟨idline :: rest, c, out⟩ =
          (.ret (), ⟨rest, c,
            out ++ [.call .deleteRecord, .println [.text "What is the record ID? "],
              .request "test_db" "sales" (.deleteOne (idFilter oid)),
              .println [.text "Successfully deleted: ", .deleted (some ⟨0⟩)]]⟩)) := by
  have hrun := deleteRecord_ok idline rest c out oid hid
  refine ⟨?_, ?_, ?_, ?_, List.filter_sublist c.docs, ?_⟩
  · rw [hrun]
  · rw [hrun]
    simp only [requests_append, requests_deleteReport, List.append_nil]
    simp [requests, idFilter]
  · intro hf hu hex
    have hex2 : ∃ x ∈ c.docs, docMatches [("_id", .oid oid)] x = true := by
      obtain ⟨x, hx, hxm⟩ := hex
      exact ⟨x, hx, (docMatches_id (.oid oid) x).mpr hxm⟩
    have hfilter : (c.docs.filter fun d => !docMatches [("_id", .oid oid)] d) =
        withoutId oid c.docs := by
      unfold withoutId
      apply List.filter_congr
      intro x _
      by_cases h : x.get "_id" = some (.oid oid)
      · simp [h, (docMatches_id (.oid oid) x).mpr h]
      · have : docMatches [("_id", .oid oid)] x = false := by
          cases hm : docMatches [("_id", .oid oid)] x with
          | false => rfl
          | true => exact absurd ((docMatches_id (.oid oid) x).mp hm) h
        simp [h, this]
    have hd : c.DeleteOne [("_id", .oid oid)] =
        ((some ⟨1⟩, none), { c with docs := withoutId oid c.docs }) := by
      unfold Client.DeleteOne
      rw [hf]
      simp only
      rw [deleteFirst_unique (.oid oid) c.docs hu hex2, hfilter]
      simp
    rw [hrun, hd]
    refine ⟨?_, ?_⟩
    · simp [deleteReport, idFilter]
    · simp [Client.Find, hf, docMatches_empty]
  · intro doc
    simp [withoutId]
  · intro hf hno
    have hno2 : ∀ x ∈ c.docs, docMatches [("_id", .oid oid)] x = false := by
      intro x hx
      cases hm : docMatches [("_id", .oid oid)] x with
      | false => rfl
      | true => exact absurd ((docMatches_id (.oid oid) x).mp hm) (hno x hx)
    have hd : c.DeleteOne [("_id", .oid oid)] = ((some ⟨0⟩, none), c) := by
      unfold Client.DeleteOne
      rw [deleteFirst_none _ c.docs hno2]
      rcases c with ⟨docs, fault, ce, fresh⟩
      simp only at hf
      subst hf
      rfl
    rw [hrun, hd]
    simp [deleteReport, idFilter]

/-- Deleting the second document of the sample store. -/
theorem deleteRecord_deletes_by_id_witness :
    deleteRecord ⟨["671aa05bf8333e0581fe6911", "more"], sampleStore, []⟩ =
        (.ret (), ⟨["more"],
          { sampleStore with docs := withoutId sampleId sampleStore.docs },
          [] ++ [.call .deleteRecord, .println [.text "What is the record ID? "],
            .request "test_db" "sales" (.deleteOne (idFilter sampleId)),
            .println [.text "Successfully deleted: ", .deleted (some ⟨1⟩)]]⟩) ∧
      (deleteRecord ⟨["671aa05bf8333e0581fe6911", "more"], sampleStore, []⟩).2.client.Find [] =
        (some ⟨withoutId sampleId sampleStore.docs, false⟩, none) :=
  (deleteRecord_deletes_by_id "671aa05bf8333e0581fe6911" ["more"] sampleStore [] sampleId
    rfl).2.2.1 rfl (by decide) ⟨_, List.mem_cons_of_mem _ (List.mem_cons_self _ _), rfl⟩

end SimpleGoApi
